import Mathlib

/-
  Verification development for the legacy AUP project importer
  (src/import/ImportAUP.cpp).

  The importer is shallowly embedded below: the tag-dispatch state machine
  (AUPImportFileHandle::HandleXMLTag / HandleXMLEndTag and the per-tag
  Handle* member functions), the deferred block-file descriptor queue
  (AddFile), the block resolver (AddSamples / AddSilence) and the import
  driver (Import).  External collaborators (XMLValueChecker, wxFileName,
  the libsndfile decode service, the progress dialog, the host project)
  are modelled as oracle functions bundled in environment records; the
  control flow and state updates of the importer itself are translated
  statement by statement from the source.

  Doubles are modelled as rationals (their arithmetic is never needed by
  the importer logic, only sign checks and pass-through storage).
  The EXPERIMENTAL_SPECTRAL_EDITING fields are treated as compiled out.
-/

namespace ImportAUP

/-- Result type of the progress dialog (ProgressResult in the source). -/
inductive ProgressResult
  | Success | Cancelled | Stopped | Failed
deriving DecidableEq, Repr

/-- Sample formats (sampleFormat in the source). -/
inductive SampleFormat
  | int16Sample | int24Sample | floatSample
deriving DecidableEq, Repr

/-- An attribute value as handed over by the tokenizer, together with the
results of the external validation/parsing services applied to it:
`goodString` is XMLValueChecker::IsGoodString, `asLong` is
IsGoodInt && wxString::ToLong, `asInt64` is IsGoodInt64 && ToLongLong,
`asDouble` is Internat::CompatibleToDouble. -/
structure AttrValue where
  raw : String
  goodString : Bool := true
  asLong : Option Int := none
  asInt64 : Option Int := none
  asDouble : Option Rat := none
deriving DecidableEq, Repr

abbrev Attrs := List (String × AttrValue)

/-- Track variants created by the importer (LabelTrack, NoteTrack,
TimeTrack, WaveTrack). -/
inductive TrackKind
  | labelT | noteT | timeT | waveT
deriving DecidableEq, Repr

/-- The XMLTagHandler pointer stored in a stack frame: the entity that
owns the children of the current tag, or none (nullptr). -/
inductive Handler
  | trackH (kind : TrackKind) (idx : Nat)
  | clipH (id : Nat)
  | envelopeH (id : Nat)
  | controlPointH (id : Nat)
deriving DecidableEq, Repr

/-- One entry of the tag-handler stack (struct node in the source). -/
structure Frame where
  parent : String
  tag : String
  handler : Option Handler
deriving DecidableEq, Repr

instance : Inhabited Frame := ⟨⟨"", "", none⟩⟩

/-- A queued block-file descriptor (struct fileinfo in the source). -/
structure FileInfo where
  track : Option Nat
  clip : Option Nat
  path : String
  len : Int
  origin : Int
  channel : Int
deriving DecidableEq, Repr

/-- The mProjectAttrs record: per-field present flag plus value. -/
structure ProjectAttrs where
  havevpos : Bool := false
  vpos : Int := 0
  haveh : Bool := false
  h : Rat := 0
  havezoom : Bool := false
  zoom : Rat := 0
  havesel0 : Bool := false
  sel0 : Rat := 0
  havesel1 : Bool := false
  sel1 : Rat := 0
  haverate : Bool := false
  rate : Rat := 0
  havesnapto : Bool := false
  snapto : Bool := false
  haveselectionformat : Bool := false
  selectionformat : String := ""
  haveaudiotimeformat : Bool := false
  audiotimeformat : String := ""
  havefrequencyformat : Bool := false
  frequencyformat : String := ""
  havebandwidthformat : Bool := false
  bandwidthformat : String := ""
deriving DecidableEq, Repr

/-- The mutable state of AUPImportFileHandle while parsing.  The head of
`handlers` is the top of the C++ vector (mHandlers.back()). -/
structure PState where
  filename : String := ""
  handlers : List Frame := []
  parentTag : String := ""
  currentTag : String := ""
  updateResult : ProgressResult := .Success
  errorMsg : Option String := none
  warnLog : List String := []
  tracks : List TrackKind := []
  files : List FileInfo := []
  totalSamples : Int := 0
  format : SampleFormat := .int16Sample
  fileMap : List (String × String) := []
  projDir : String := ""
  projAttrs : ProjectAttrs := {}
  tagsMap : List (String × String) := []
  waveTrack : Option Nat := none
  clip : Option Nat := none
  nextId : Nat := 0
deriving DecidableEq, Repr

/-- Oracles for the external collaborators consulted during parsing:
XMLValueChecker predicates, wxFileName/wxDir operations and the
HandleXMLTag methods of externally-defined entities (WaveTrack,
WaveClip, Envelope, LabelTrack, ...). -/
structure Env where
  hostHasTimeTrack : Bool := false
  delegate : Handler → String → Attrs → Bool := fun _ _ _ => true
  goodName : String → Bool := fun _ => true
  isValidSampleFormat : Int → Bool := fun _ => true
  sampleFormatOf : Int → SampleFormat := fun _ => .int16Sample
  isGoodFileString : String → Bool := fun _ => true
  isGoodPathName : String → Bool := fun _ => true
  isGoodFileNameIn : String → String → Bool := fun _ _ => true
  isGoodPathString : String → Bool := fun _ => true
  dirExists : String → Bool := fun _ => true
  filesIn : String → List (String × String) := fun _ => []
  dirOf : String → String := fun _ => ""
  baseNameOf : String → String := fun _ => ""
  appendDir : String → String → String := fun d n => d ++ "/" ++ n
  joinPath : String → String → String := fun d n => d ++ "/" ++ n
  envelopeChild : Handler → Option Handler := fun _ => none

/-- SetError: log the message, retain the first message, and mark the
whole import failed. -/
def setError (st : PState) (msg : String) : PState :=
  { st with errorMsg := some (st.errorMsg.getD msg), updateResult := .Failed }

/-- SetWarning: log the message and retain the first message; the update
result is left alone, so warnings never abort the import. -/
def setWarning (st : PState) (msg : String) : PState :=
  { st with warnLog := st.warnLog ++ [msg],
            errorMsg := some (st.errorMsg.getD msg) }

/-- Case-insensitive attribute-name comparison (wxStricmp), spelled out
over the character lists so that it evaluates by kernel reduction. -/
def eqCI (a b : String) : Bool :=
  a.data.map Char.toLower == b.data.map Char.toLower

def mapInsert (m : List (String × String)) (k v : String) :
    List (String × String) :=
  if m.any (fun p => p.1 == k) then
    m.map (fun p => if p.1 == k then (k, v) else p)
  else
    m ++ [(k, v)]

def mapFind? (m : List (String × String)) (k : String) : Option String :=
  (m.find? (fun p => p.1 == k)).map Prod.snd

/-- Outcome of a per-tag attribute loop: an early `return false` that went
through SetError (or the message-box bail-out of the projname branch)
carries the state at that point. -/
abbrev LoopOut (α : Type) := Except PState α

/-- The set(f, v) macro of HandleProject, one updater per field. -/
def paVpos (pa : ProjectAttrs) (l : Int) : ProjectAttrs :=
  { pa with havevpos := true, vpos := l }

def paH (pa : ProjectAttrs) (d : Rat) : ProjectAttrs :=
  { pa with haveh := true, h := d }

def paZoom (pa : ProjectAttrs) (d : Rat) : ProjectAttrs :=
  { pa with havezoom := true, zoom := d }

def paSel0 (pa : ProjectAttrs) (d : Rat) : ProjectAttrs :=
  { pa with havesel0 := true, sel0 := d }

def paSel1 (pa : ProjectAttrs) (d : Rat) : ProjectAttrs :=
  { pa with havesel1 := true, sel1 := d }

def paRate (pa : ProjectAttrs) (d : Rat) : ProjectAttrs :=
  { pa with haverate := true, rate := d }

def paSnapTo (pa : ProjectAttrs) (b : Bool) : ProjectAttrs :=
  { pa with havesnapto := true, snapto := b }

def paSelectionFormat (pa : ProjectAttrs) (s : String) : ProjectAttrs :=
  { pa with haveselectionformat := true, selectionformat := s }

def paAudioTimeFormat (pa : ProjectAttrs) (s : String) : ProjectAttrs :=
  { pa with haveaudiotimeformat := true, audiotimeformat := s }

def paFrequencyFormat (pa : ProjectAttrs) (s : String) : ProjectAttrs :=
  { pa with havefrequencyformat := true, frequencyformat := s }

def paBandwidthFormat (pa : ProjectAttrs) (s : String) : ProjectAttrs :=
  { pa with havebandwidthformat := true, bandwidthformat := s }

def withPA (st : PState) (pa : ProjectAttrs) : PState :=
  { st with projAttrs := pa }

/-- The state update of the projname branch: remember the resolved data
directory and the file-name index built from its listing. -/
def withProjData (st : PState) (dir : String) (m : List (String × String)) :
    PState :=
  { st with projDir := dir, fileMap := m }

/-- The rate / snapto / format-name group of the HandleProject attribute
chain (the error strings mirror the source, including the misspelled
message of the rate branch); an unknown attribute falls through
unchanged. -/
def projStepRest (_env : Env) (st : PState) (attr : String) (value : AttrValue)
    (req : Nat) : LoopOut (PState × Nat) :=
  if attr = "rate" then
    match value.asDouble with
    | some d =>
      if d < 0 then .error (setError st "Invalid project selLow attribute.")
      else .ok (withPA st (paRate st.projAttrs d), req)
    | none => .error (setError st "Invalid project selLow attribute.")
  else if attr = "snapto" then
    .ok (withPA st (paSnapTo st.projAttrs (value.raw = "on")), req)
  else if attr = "selectionformat" then
    .ok (withPA st (paSelectionFormat st.projAttrs value.raw), req)
  else if attr = "audiotimeformat" then
    .ok (withPA st (paAudioTimeFormat st.projAttrs value.raw), req)
  else if attr = "frequencyformat" then
    .ok (withPA st (paFrequencyFormat st.projAttrs value.raw), req)
  else if attr = "bandwidthformat" then
    .ok (withPA st (paBandwidthFormat st.projAttrs value.raw), req)
  else .ok (st, req)

/-- The two-step data-directory fallback of the projname branch: try the
directory named by the attribute, else the aup-basename-data directory
(appended on top of the first candidate path, exactly as
wxFileName::AppendDir does in the source); none is the message-box
bail-out. -/
def projnameResolve (env : Env) (filename : String) (raw : String) :
    Option String :=
  let base := env.dirOf filename
  let altname := env.baseNameOf filename ++ "-data"
  let dir1 := if raw ≠ "" then env.appendDir base raw else base
  let found1 := raw ≠ "" && env.dirExists dir1
  if found1 then some dir1
  else
    let dir2 := env.appendDir dir1 altname
    if env.dirExists dir2 then some dir2 else none

/-- The requiredTags group of the HandleProject attribute chain: version
and audacityversion just count; projname counts and resolves the data
directory via projnameResolve. -/
def projStepRequired (env : Env) (st : PState) (attr : String)
    (value : AttrValue) (req : Nat) : LoopOut (PState × Nat) :=
  if attr = "version" then .ok (st, req + 1)
  else if attr = "audacityversion" then .ok (st, req + 1)
  else if attr = "projname" then
    match projnameResolve env st.filename value.raw with
    | none => .error st
    | some dir =>
      .ok (withProjData st dir
        ((env.filesIn dir).foldl (fun m p => mapInsert m p.1 p.2) st.fileMap),
        req + 1)
  else projStepRest env st attr value req

/-- The good-string check and the ViewInfo group of the HandleProject
attribute chain, falling through to the later groups in source order. -/
def projStepView (env : Env) (st : PState) (attr : String) (value : AttrValue)
    (req : Nat) : LoopOut (PState × Nat) :=
  if value.goodString = false then
    .error (setError st ("Invalid project " ++ attr ++ " attribute."))
  else if attr = "vpos" then
    match value.asLong with
    | some l =>
      if l < 0 then .error (setError st "Invalid project vpos attribute.")
      else .ok (withPA st (paVpos st.projAttrs l), req)
    | none => .error (setError st "Invalid project vpos attribute.")
  else if attr = "h" then
    match value.asDouble with
    | some d =>
      if d < 0 then .error (setError st "Invalid project h attribute.")
      else .ok (withPA st (paH st.projAttrs d), req)
    | none => .error (setError st "Invalid project h attribute.")
  else if attr = "zoom" then
    match value.asDouble with
    | some d =>
      if d < 0 then .error (setError st "Invalid project zoom attribute.")
      else .ok (withPA st (paZoom st.projAttrs d), req)
    | none => .error (setError st "Invalid project zoom attribute.")
  else if attr = "sel0" then
    match value.asDouble with
    | some d =>
      if d < 0 then .error (setError st "Invalid project sel0 attribute.")
      else .ok (withPA st (paSel0 st.projAttrs d), req)
    | none => .error (setError st "Invalid project sel0 attribute.")
  else if attr = "sel1" then
    match value.asDouble with
    | some d =>
      if d < 0 then .error (setError st "Invalid project sel1 attribute.")
      else .ok (withPA st (paSel1 st.projAttrs d), req)
    | none => .error (setError st "Invalid project sel1 attribute.")
  else projStepRequired env st attr value req

/-- The attribute loop of HandleProject: process one attribute at a time
through the chain above, threading state and the requiredTags counter,
stopping at the first failed validation. -/
def handleProjectLoop (env : Env) : PState → Nat → Attrs → LoopOut (PState × Nat)
  | st, req, [] => .ok (st, req)
  | st, req, (attr, value) :: rest =>
    match projStepView env st attr value req with
    | .error st2 => .error st2
    | .ok (st2, req2) => handleProjectLoop env st2 req2 rest

/-- HandleProject: run the attribute loop, then enforce the
requiredTags >= 3 gate.  Never sets a handler. -/
def handleProject (env : Env) (st : PState) (attrs : Attrs) :
    Bool × Option Handler × PState :=
  match handleProjectLoop env st 0 attrs with
  | .error st' => (false, none, st')
  | .ok (st', req) => if req < 3 then (false, none, st') else (true, none, st')

/-- HandleLabelTrack: create a LabelTrack and make it the owner. -/
def handleLabelTrack (st : PState) : Bool × Option Handler × PState :=
  (true, some (.trackH .labelT st.tracks.length),
   { st with tracks := st.tracks ++ [.labelT] })

/-- HandleNoteTrack (USE_MIDI builds): create a NoteTrack. -/
def handleNoteTrack (st : PState) : Bool × Option Handler × PState :=
  (true, some (.trackH .noteT st.tracks.length),
   { st with tracks := st.tracks ++ [.noteT] })

/-- HandleTimeTrack: if the host project already has a TimeTrack the tag
is bypassed (message box, handler left null, success); otherwise a new
TimeTrack is created and becomes the owner. -/
def handleTimeTrack (env : Env) (st : PState) : Bool × Option Handler × PState :=
  if env.hostHasTimeTrack then
    (true, none, st)
  else
    (true, some (.trackH .timeT st.tracks.length),
     { st with tracks := st.tracks ++ [.timeT] })

/-- HandleWaveTrack: create a WaveTrack, record it as the active wave
track, clear the active clip. -/
def handleWaveTrack (st : PState) : Bool × Option Handler × PState :=
  (true, some (.trackH .waveT st.tracks.length),
   { st with tracks := st.tracks ++ [.waveT],
             waveTrack := some st.tracks.length,
             clip := none })

/-- The legacy-attribute loop of HandleTags; `none` models the plain
`return false` taken when a name or value fails the good-string check. -/
def handleTagsLoop (env : Env) : PState → Attrs → Option PState
  | st, [] => some st
  | st, (attr, value) :: rest =>
    if value.raw = "" then handleTagsLoop env st rest
    else if ¬ (env.goodName attr && value.goodString) then none
    else if attr = "id3v2" then handleTagsLoop env st rest
    else if attr = "track" then
      handleTagsLoop env
        { st with tagsMap := mapInsert st.tagsMap "TRACKNUMBER" value.raw } rest
    else
      handleTagsLoop env
        { st with tagsMap := mapInsert st.tagsMap attr.toUpper value.raw } rest

/-- HandleTags. -/
def handleTags (env : Env) (st : PState) (attrs : Attrs) :
    Bool × Option Handler × PState :=
  match handleTagsLoop env st attrs with
  | none => (false, none, st)
  | some st' => (true, none, st')

def handleTagLoop (env : Env) : String → String → Attrs → String × String
  | n, v, [] => (n, v)
  | n, v, (attr, value) :: rest =>
    if attr = "" then (n, v)
    else if ¬ (env.goodName attr && value.goodString) then (n, v)
    else if attr = "name" then handleTagLoop env value.raw v rest
    else if attr = "value" then handleTagLoop env n value.raw rest
    else handleTagLoop env n v rest

/-- HandleTag: context rule, then collect name/value and store the tag
(the obsolete id3v2 tag is tolerated and ignored). -/
def handleTag (env : Env) (st : PState) (attrs : Attrs) :
    Bool × Option Handler × PState :=
  if ¬ (st.parentTag = "tags") then (false, none, st)
  else
    let nv := handleTagLoop env "" "" attrs
    if nv.1 = "id3v2" then (true, none, st)
    else (true, none, { st with tagsMap := mapInsert st.tagsMap nv.1 nv.2 })

/-- HandleLabel: context rule, then delegate to the LabelTrack ancestor
(the owner is the frame of the parent tag). -/
def handleLabel (st : PState) : Bool × Option Handler × PState :=
  if ¬ (st.parentTag = "labeltrack") then (false, none, st)
  else (true, (st.handlers.headD default).handler, st)

def handlerClip : Option Handler → Option Nat
  | some (.clipH i) => some i
  | _ => none

/-- HandleWaveClip: under a wavetrack create a clip on it; under a
waveclip create a nested cut-line clip; the created clip (or nullptr)
becomes the active clip. -/
def handleWaveClip (st : PState) : Bool × Option Handler × PState :=
  let res :
      Option Handler × PState :=
    if st.parentTag = "wavetrack" then
      (some (.clipH st.nextId), { st with nextId := st.nextId + 1 })
    else if st.parentTag = "waveclip" then
      (some (.clipH st.nextId), { st with nextId := st.nextId + 1 })
    else (none, st)
  (true, res.1, { res.2 with clip := handlerClip res.1 })

/-- The attribute loop of HandleSequence. -/
def handleSequenceLoop (env : Env) : PState → Attrs → LoopOut PState
  | st, [] => .ok st
  | st, (attr, value) :: rest =>
    if attr = "maxsamples" then
      match value.asInt64 with
      | some n =>
        if n < 0 then .error (setError st "Invalid sequence maxsamples attribute.")
        else if n < 1024 ∨ n > 64 * 1024 * 1024 then
          .error (setError st "Invalid sequence maxsamples attribute.")
        else handleSequenceLoop env st rest
      | none => .error (setError st "Invalid sequence maxsamples attribute.")
    else if attr = "sampleformat" then
      match value.asLong with
      | some f =>
        if f < 0 ∨ ¬ env.isValidSampleFormat f then
          .error (setError st "Invalid sequence sampleformat attribute.")
        else handleSequenceLoop env { st with format := env.sampleFormatOf f } rest
      | none => .error (setError st "Invalid sequence sampleformat attribute.")
    else if attr = "numsamples" then
      match value.asInt64 with
      | some n =>
        if n < 0 then .error (setError st "Invalid sequence numsamples attribute.")
        else handleSequenceLoop env st rest
      | none => .error (setError st "Invalid sequence numsamples attribute.")
    else handleSequenceLoop env st rest

/-- HandleSequence (the waveclip cast at its head is dead code in the
source and not modelled). -/
def handleSequence (env : Env) (st : PState) (attrs : Attrs) :
    Bool × Option Handler × PState :=
  match handleSequenceLoop env st attrs with
  | .error st' => (false, none, st')
  | .ok st' => (true, none, st')

def handleWaveBlockLoop : PState → Attrs → LoopOut PState
  | st, [] => .ok st
  | st, (attr, value) :: rest =>
    if attr = "start" then
      match value.asInt64 with
      | some n =>
        if n < 0 then
          .error (setError st "Unable to parse the waveblock start attribute")
        else handleWaveBlockLoop st rest
      | none => .error (setError st "Unable to parse the waveblock start attribute")
    else handleWaveBlockLoop st rest

/-- HandleWaveBlock. -/
def handleWaveBlock (st : PState) (attrs : Attrs) :
    Bool × Option Handler × PState :=
  match handleWaveBlockLoop st attrs with
  | .error st' => (false, none, st')
  | .ok st' => (true, none, st')

/-- HandleEnvelope: under a timetrack the track envelope (bypassed, hence
a null owner, when the timetrack frame has a null handler); under a
wavetrack the envelope of the rightmost-or-new clip; under a waveclip
the clip envelope. -/
def handleEnvelope (st : PState) : Bool × Option Handler × PState :=
  let node := st.handlers.headD default
  if st.parentTag = "timetrack" then
    match node.handler with
    | some _ =>
      (true, some (.envelopeH st.nextId), { st with nextId := st.nextId + 1 })
    | none => (true, none, st)
  else if st.parentTag = "wavetrack" then
    (true, some (.envelopeH st.nextId), { st with nextId := st.nextId + 1 })
  else if st.parentTag = "waveclip" then
    match node.handler with
    | some _ =>
      (true, some (.envelopeH st.nextId), { st with nextId := st.nextId + 1 })
    | none => (true, none, st)
  else (true, none, st)

/-- HandleControlPoint: only meaningful under an envelope; a null
envelope owner (bypassed timetrack subtree) yields a null owner; any
other parent silently yields a null owner and success. -/
def handleControlPoint (env : Env) (st : PState) : Bool × Option Handler × PState :=
  let node := st.handlers.headD default
  if st.parentTag = "envelope" then
    match node.handler with
    | some h => (true, env.envelopeChild h, st)
    | none => (true, none, st)
  else (true, none, st)

/-- AddFile: append a block-file descriptor bound to the active
track/clip and accumulate the total sample count. -/
def addFile (st : PState) (len : Int) (path : String := "")
    (origin : Int := 0) (channel : Int := 0) : PState :=
  { st with
    files := st.files ++ [⟨st.waveTrack, st.clip, path, len, origin, channel⟩],
    totalSamples := st.totalSamples + len }

def handleSimpleBlockFileLoop (env : Env) :
    PState → String → Int → Attrs → LoopOut (PState × String × Int)
  | st, fname, len, [] => .ok (st, fname, len)
  | st, fname, len, (attr, value) :: rest =>
    if eqCI attr "filename" then
      if env.isGoodFileString value.raw then
        match mapFind? st.fileMap value.raw with
        | some path => handleSimpleBlockFileLoop env st path len rest
        | none =>
          handleSimpleBlockFileLoop env
            (setWarning st ("Missing project file " ++ value.raw ++
              ". Inserting silence instead."))
            fname len rest
      else handleSimpleBlockFileLoop env st fname len rest
    else if attr = "len" then
      match value.asInt64 with
      | some n =>
        if n ≤ 0 then
          .error (setError st "Missing or invalid simpleblockfile len attribute.")
        else handleSimpleBlockFileLoop env st fname n rest
      | none =>
        .error (setError st "Missing or invalid simpleblockfile len attribute.")
    else handleSimpleBlockFileLoop env st fname len rest

/-- HandleSimpleBlockFile. -/
def handleSimpleBlockFile (env : Env) (st : PState) (attrs : Attrs) :
    Bool × Option Handler × PState :=
  match handleSimpleBlockFileLoop env st "" 0 attrs with
  | .error st' => (false, none, st')
  | .ok (st', fname, len) => (true, none, addFile st' len fname)

def handleSilentBlockFileLoop : PState → Int → Attrs → LoopOut (PState × Int)
  | st, len, [] => .ok (st, len)
  | st, len, (attr, value) :: rest =>
    if attr = "len" then
      match value.asInt64 with
      | some n =>
        if ¬ (n > 0) then
          .error (setError st "Missing or invalid silentblockfile len attribute.")
        else handleSilentBlockFileLoop st n rest
      | none =>
        .error (setError st "Missing or invalid silentblockfile len attribute.")
    else handleSilentBlockFileLoop st len rest

/-- HandleSilentBlockFile. -/
def handleSilentBlockFile (st : PState) (attrs : Attrs) :
    Bool × Option Handler × PState :=
  match handleSilentBlockFileLoop st 0 attrs with
  | .error st' => (false, none, st')
  | .ok (st', len) => (true, none, addFile st' len)

def handlePCMAliasLoop (env : Env) :
    PState → String → Int → Int → Int → Attrs →
    LoopOut (PState × String × Int × Int × Int)
  | st, fname, start, len, channel, [] => .ok (st, fname, start, len, channel)
  | st, fname, start, len, channel, (attr, value) :: rest =>
    if eqCI attr "aliasfile" then
      if env.isGoodPathName value.raw then
        handlePCMAliasLoop env st value.raw start len channel rest
      else if env.isGoodFileNameIn value.raw st.projDir then
        handlePCMAliasLoop env st (env.joinPath st.projDir value.raw)
          start len channel rest
      else if env.isGoodPathString value.raw then
        handlePCMAliasLoop env
          (setWarning st ("Missing alias file " ++ value.raw ++
            ". Inserting silence instead."))
          fname start len channel rest
      else handlePCMAliasLoop env st fname start len channel rest
    else if eqCI attr "aliasstart" then
      match value.asInt64 with
      | some n =>
        if n < 0 then
          .error (setError st
            "Missing or invalid pcmaliasblockfile aliasstart attribute.")
        else handlePCMAliasLoop env st fname n len channel rest
      | none =>
        .error (setError st
          "Missing or invalid pcmaliasblockfile aliasstart attribute.")
    else if eqCI attr "aliaslen" then
      match value.asInt64 with
      | some n =>
        if n ≤ 0 then
          .error (setError st
            "Missing or invalid pcmaliasblockfile aliaslen attribute.")
        else handlePCMAliasLoop env st fname start n channel rest
      | none =>
        .error (setError st
          "Missing or invalid pcmaliasblockfile aliaslen attribute.")
    else if eqCI attr "aliaschannel" then
      match value.asLong with
      | some n =>
        if n < 0 then
          .error (setError st
            "Missing or invalid pcmaliasblockfile aliaslen attribute.")
        else handlePCMAliasLoop env st fname start len n rest
      | none =>
        .error (setError st
          "Missing or invalid pcmaliasblockfile aliaslen attribute.")
    else handlePCMAliasLoop env st fname start len channel rest

/-- HandlePCMAliasBlockFile (the silence/decode fallback after the
unconditional return in the source is dead code and not modelled). -/
def handlePCMAliasBlockFile (env : Env) (st : PState) (attrs : Attrs) :
    Bool × Option Handler × PState :=
  match handlePCMAliasLoop env st "" 0 0 0 attrs with
  | .error st' => (false, none, st')
  | .ok (st', fname, start, len, channel) =>
    (true, none, addFile st' len fname start channel)

/-- The tag-name dispatch chain of HandleXMLTag. -/
def dispatchTag (env : Env) (st : PState) (tag : String) (attrs : Attrs) :
    Bool × Option Handler × PState :=
  if tag = "project" ∨ tag = "audacityproject" then handleProject env st attrs
  else if tag = "labeltrack" then handleLabelTrack st
  else if tag = "notetrack" then handleNoteTrack st
  else if tag = "timetrack" then handleTimeTrack env st
  else if tag = "wavetrack" then handleWaveTrack st
  else if tag = "tags" then handleTags env st attrs
  else if tag = "tag" then handleTag env st attrs
  else if tag = "label" then handleLabel st
  else if tag = "waveclip" then handleWaveClip st
  else if tag = "sequence" then handleSequence env st attrs
  else if tag = "waveblock" then handleWaveBlock st attrs
  else if tag = "envelope" then handleEnvelope st
  else if tag = "controlpoint" then handleControlPoint env st
  else if tag = "simpleblockfile" then handleSimpleBlockFile env st attrs
  else if tag = "silentblockfile" then handleSilentBlockFile st attrs
  else if tag = "pcmaliasblockfile" then handlePCMAliasBlockFile env st attrs
  else (false, none, st)

/-- HandleXMLTag: shift parent/current, dispatch, on failure (of the tag
rule or of the delegated owner) record the fatal error, otherwise push
the new frame. -/
def handleXMLTag (env : Env) (st : PState) (tag : String) (attrs : Attrs) :
    Bool × PState :=
  if st.updateResult ≠ .Success then (false, st)
  else
    let st1 := { st with parentTag := st.currentTag, currentTag := tag }
    let r := dispatchTag env st1 tag attrs
    let success := r.1
    let handler := r.2.1
    let st2 := r.2.2
    let delegateOk :=
      match handler with
      | some hd => env.delegate hd tag attrs
      | none => true
    if success && delegateOk then
      (true, { st2 with
        handlers := ⟨st2.parentTag, st2.currentTag, handler⟩ :: st2.handlers })
    else
      (false, setError st2 "Internal error in importer...tag not recognized")

/-- HandleXMLEndTag: pop the top frame (setting the active clip when a
waveclip closes) and restore parent/current from the new top.  The
source calls back() on the stack unconditionally; an empty stack is
undefined behaviour there and a no-op here. -/
def handleXMLEndTag (st : PState) (tag : String) : PState :=
  if st.updateResult ≠ .Success then st
  else
    match st.handlers with
    | [] => st
    | node :: rest =>
      let st := if tag = "waveclip" then { st with clip := handlerClip node.handler }
                else st
      let st := { st with handlers := rest }
      match rest with
      | [] => st
      | n2 :: _ => { st with parentTag := n2.parent, currentTag := n2.tag }

/-- One tokenizer event. -/
inductive XmlEvent
  | openTag (tag : String) (attrs : Attrs)
  | closeTag (tag : String)
deriving DecidableEq, Repr

/-- Drive the dispatcher over a list of tokenizer events; a false return
from HandleXMLTag aborts the parse (XMLFileReader reports failure). -/
def runEvents (env : Env) : PState → List XmlEvent → Bool × PState
  | st, [] => (true, st)
  | st, .openTag t a :: rest =>
    let r := handleXMLTag env st t a
    if r.1 then runEvents env r.2 rest else (false, r.2)
  | st, .closeTag t :: rest => runEvents env (handleXMLEndTag st t) rest

/-- An opened audio source as seen through libsndfile: channel count, the
two subtype predicates consulted by AddSamples, and the frame data
(frame i, channel c).  Sample values are modelled as integers; the
general float path hands conversion to an oracle. -/
structure SFile where
  channels : Nat
  subtypeInteger : Bool
  moreThan16 : Bool
  frames : List (List Int)
deriving DecidableEq, Repr

/-- Oracles for the file system and the decode service used during block
resolution: wxFile::Open, sf_open_fd, sf_seek, the contents of the
uninitialized SampleBuffer, and CopySamples on the float path. -/
structure AudioEnv where
  fopenOk : String → Bool := fun _ => true
  sfOpen : String → Option SFile := fun _ => none
  seekOk : SFile → Int → Bool := fun _ _ => true
  junk : Nat → Int := fun _ => 0
  convert : SFile → SampleFormat → Int → Nat → List Int := fun _ _ _ _ => []

/-- One sample run appended to the owning clip or track. -/
inductive Run
  | samples (data : List Int)
  | silence (len : Int)
deriving DecidableEq, Repr

/-- The observable outcome of resolving one descriptor: the warnings
logged (in order), the run appended, and the internal success flag of
AddSamples (false means the scope-exit cleanup substituted silence). -/
structure ResolveRes where
  warns : List String
  run : Run
  success : Bool
deriving DecidableEq, Repr

def frameSample (fr : List Int) (c : Nat) : Int := fr.getD c 0

def junkFill (aenv : AudioEnv) (start n : Nat) : List Int :=
  (List.range n).map (fun i => aenv.junk (start + i))

def openWarnMsg (f : String) : String := "Failed to open " ++ f
def seekWarnMsg (f : String) : String := "Failed to seek in " ++ f
def readWarnMsg (c : Nat) (f : String) : String :=
  "Unable to read " ++ toString c ++ " samples from " ++ f
def processWarnMsg (f : String) : String :=
  "Error while processing " ++ f ++ ". Inserting silence."

/-- Failure outcome shared by every bail-out inside AddSamples: the
specific warning, then the scope-exit cleanup warning plus a silence
run of exactly the requested length. -/
def decodeFail (w : String) (f : String) (len : Int) : ResolveRes :=
  ⟨[w, processWarnMsg f], .silence len, false⟩

/-- Decode path 1 of AddSamples: mono 16-bit destination on an integer
subtype; sf_readf_short straight into the buffer, the frame count
returned by the read is not checked. -/
def decodeMono16 (aenv : AudioEnv) (avail : List (List Int)) (cnt : Nat) :
    ResolveRes :=
  let framesRead := min cnt avail.length
  ⟨[], .samples (((avail.take cnt).map (frameSample · 0)) ++
      junkFill aenv framesRead (cnt - framesRead)), true⟩

/-- Decode path 2 of AddSamples: mono 24-bit destination on an integer
subtype; sf_readf_int, short reads bail out, then an arithmetic shift
by 8 moves the sample into the 3 least significant bytes. -/
def decodeMono24 (_aenv : AudioEnv) (f : String) (avail : List (List Int))
    (cnt : Nat) (len : Int) : ResolveRes :=
  let framesRead := min cnt avail.length
  if framesRead ≠ cnt then decodeFail (readWarnMsg cnt f) f len
  else ⟨[], .samples ((avail.take cnt).map (fun fr => (frameSample fr 0).fdiv 256)),
        true⟩

/-- Decode path 3 of AddSamples: 16-bit destination, source at most 16
bits; sf_readf_short into a temporary, short reads bail out, then the
requested channel is selected out of the interleaved frames. -/
def decode16Select (_aenv : AudioEnv) (f : String) (avail : List (List Int))
    (cnt : Nat) (channel : Nat) (len : Int) : ResolveRes :=
  let framesRead := min cnt avail.length
  if framesRead ≠ cnt then decodeFail (readWarnMsg cnt f) f len
  else ⟨[], .samples ((avail.take cnt).map (frameSample · channel)), true⟩

/-- Decode path 4 of AddSamples: sf_readf_float with normalization, short
reads bail out, then CopySamples (an external service, here an oracle)
de-interleaves and converts. -/
def decodeFloat (aenv : AudioEnv) (sf : SFile) (f : String)
    (avail : List (List Int)) (cnt : Nat) (channel : Int) (format : SampleFormat)
    (len : Int) : ResolveRes :=
  let framesRead := min cnt avail.length
  if framesRead ≠ cnt then decodeFail (readWarnMsg cnt f) f len
  else ⟨[], .samples (aenv.convert sf format channel cnt), true⟩

/-- AddSamples: open, seek, then dispatch among the four decode paths;
every failure path degrades to a warning plus silence of the requested
length via the scope-exit cleanup. -/
def addSamples (aenv : AudioEnv) (format : SampleFormat) (filename : String)
    (len origin : Int) (channel : Int) : ResolveRes :=
  if ¬ aenv.fopenOk filename then
    decodeFail (openWarnMsg filename) filename len
  else
    match aenv.sfOpen filename with
    | none => decodeFail (openWarnMsg filename) filename len
    | some sf =>
      if origin > 0 ∧ ¬ aenv.seekOk sf origin then
        decodeFail (seekWarnMsg filename) filename len
      else
        let cnt := len.toNat
        let avail := sf.frames.drop origin.toNat
        if sf.channels = 1 ∧ format = .int16Sample ∧ sf.subtypeInteger then
          decodeMono16 aenv avail cnt
        else if sf.channels = 1 ∧ format = .int24Sample ∧ sf.subtypeInteger then
          decodeMono24 aenv filename avail cnt len
        else if format = .int16Sample ∧ ¬ sf.moreThan16 then
          decode16Select aenv filename avail cnt channel.toNat len
        else
          decodeFloat aenv sf filename avail cnt channel format len

/-- The body of the descriptor loop of Import: an empty path inserts
silence directly (AddSilence), otherwise AddSamples runs. -/
def resolveDescriptor (aenv : AudioEnv) (format : SampleFormat)
    (fi : FileInfo) : ResolveRes :=
  if fi.path = "" then ⟨[], .silence fi.len, true⟩
  else addSamples aenv format fi.path fi.len fi.origin fi.channel

/-- The descriptor loop of Import: one cooperative progress check per
descriptor (index, processed so far, total), returning early with the
progress result on cancellation or failure; decode problems never stop
the loop. -/
def resolveLoop (aenv : AudioEnv) (format : SampleFormat)
    (progress : Nat → Int → Int → ProgressResult) (total : Int) :
    Nat → Int → List FileInfo → ProgressResult × List ResolveRes
  | _, _, [] => (.Success, [])
  | idx, processed, fi :: rest =>
    let r := progress idx processed total
    if r ≠ .Success then (r, [])
    else
      let res := resolveDescriptor aenv format fi
      let t := resolveLoop aenv format progress total (idx + 1)
        (processed + fi.len) rest
      (t.1, res :: t.2)

/-- View-state mutations applied to the host at commit time, in program
order. -/
inductive ViewOp
  | setRate (r : Rat)
  | setSnapTo (b : Bool)
  | setSelectionFormat (s : String)
  | setAudioTimeFormat (s : String)
  | setFrequencyFormat (s : String)
  | setBandwidthFormat (s : String)
  | setVPos (v : Int)
  | setH (h : Rat)
  | setZoom (z : Rat)
  | setSel0 (t : Rat)
  | setSel1 (t : Rat)
deriving DecidableEq, Repr

/-- The tail of Import: apply each ProjectAttributes field whose present
flag is set, in the fixed program order of the source. -/
def applyProjectAttrs (pa : ProjectAttrs) : List ViewOp :=
  (if pa.haverate then [.setRate pa.rate] else []) ++
  (if pa.havesnapto then [.setSnapTo pa.snapto] else []) ++
  (if pa.haveselectionformat then [.setSelectionFormat pa.selectionformat] else []) ++
  (if pa.haveaudiotimeformat then [.setAudioTimeFormat pa.audiotimeformat] else []) ++
  (if pa.havefrequencyformat then [.setFrequencyFormat pa.frequencyformat] else []) ++
  (if pa.havebandwidthformat then [.setBandwidthFormat pa.bandwidthformat] else []) ++
  (if pa.havevpos then [.setVPos pa.vpos] else []) ++
  (if pa.haveh then [.setH pa.h] else []) ++
  (if pa.havezoom then [.setZoom pa.zoom] else []) ++
  (if pa.havesel0 then [.setSel0 pa.sel0] else []) ++
  (if pa.havesel1 then [.setSel1 pa.sel1] else [])

/-- The host project as Import observes and mutates it: the history
dirty flag, the track list, and a log of view-state mutations. -/
structure Host where
  histDirty : Bool := false
  tracks : List TrackKind := []
  viewOps : List ViewOp := []
deriving DecidableEq, Repr

/-- AUPImportFileHandle::Import.  Inputs: the parsing environment, the
decode environment, the progress oracle, whether the tokenizer itself
succeeded, the event stream, the .aup file name and the host project.
Output: the progress result, the updated host, and the per-descriptor
resolution log. -/
def importAUP (env : Env) (aenv : AudioEnv)
    (progress : Nat → Int → Int → ProgressResult)
    (xmlWellFormed : Bool) (events : List XmlEvent)
    (filename : String) (host : Host) :
    ProgressResult × Host × List ResolveRes :=
  let isDirty := host.histDirty || !host.tracks.isEmpty
  let p := runEvents env { filename := filename } events
  if ¬ (xmlWellFormed && p.1) then (.Failed, host, [])
  else
    let st := p.2
    if st.errorMsg.isSome ∧ st.updateResult = .Failed then (.Failed, host, [])
    else
      let t := resolveLoop aenv st.format progress st.totalSamples 0 0 st.files
      if t.1 ≠ .Success then (t.1, host, t.2)
      else
        let host1 := { host with tracks := host.tracks ++ st.tracks }
        if isDirty then (.Success, host1, t.2)
        else
          (.Success,
           { host1 with viewOps := host1.viewOps ++ applyProjectAttrs st.projAttrs },
           t.2)

/-- The fixed tag vocabulary recognized by the dispatch chain of
HandleXMLTag (fifteen tag kinds; the root kind answers to two names). -/
def recognizedTags : List String :=
  ["project", "audacityproject", "labeltrack", "notetrack", "timetrack",
   "wavetrack", "tags", "tag", "label", "waveclip", "sequence", "waveblock",
   "envelope", "controlpoint", "simpleblockfile", "silentblockfile",
   "pcmaliasblockfile"]

/-- The three root attributes counted by the requiredTags gate of
HandleProject. -/
def isRequiredProjAttr (a : String) : Bool :=
  a == "version" || a == "audacityversion" || a == "projname"

/-- Number of occurrences of the three required root attributes in an
attribute list. -/
def reqCount (attrs : Attrs) : Nat :=
  attrs.countP (fun p => isRequiredProjAttr p.1)

/-- Attribute-list membership by exact name (wxStrcmp). -/
def hasAttr (attrs : Attrs) (name : String) : Bool :=
  attrs.any (fun p => p.1 == name)

/-- Attribute-list membership by case-insensitive name (wxStricmp). -/
def hasAttrCI (attrs : Attrs) (name : String) : Bool :=
  attrs.any (fun p => eqCI p.1 name)

/-- Events that may occur inside a time-track subtree: envelope and
control-point tags only. -/
def isEnvCp : XmlEvent → Bool
  | .openTag t _ => t == "envelope" || t == "controlpoint"
  | .closeTag t => t == "envelope" || t == "controlpoint"

/-- Well-nestedness of an event list relative to a starting depth: a
close event never pops below the starting frame. -/
def nestedOk : Nat → List XmlEvent → Bool
  | _, [] => true
  | d, .openTag _ _ :: es => nestedOk (d + 1) es
  | 0, .closeTag _ :: _ => false
  | d + 1, .closeTag _ :: es => nestedOk d es

/-- A stack frame inside a bypassed time-track subtree: null owner,
envelope or control-point tag. -/
def bypassFrameOk (f : Frame) : Prop :=
  f.handler = none ∧ (f.tag = "envelope" ∨ f.tag = "controlpoint")

/-- Everything in the parser state except the stack and the parent and
current tag names. -/
def coreOf (st : PState) : PState :=
  { st with handlers := [], parentTag := "", currentTag := "" }

/-- The invariant maintained while parsing inside a bypassed time-track
subtree: still successful, the stack is null-owner subtree frames over
the bypassed time-track frame, the current tag matches the top of the
stack, and every other state component is untouched. -/
structure BypassInv (base : List Frame) (st0 : PState) (d : Nat) (st : PState) :
    Prop where
  ures : st.updateResult = .Success
  stack : ∃ upper, upper.length = d ∧ st.handlers = upper ++ base ∧
    ∀ f ∈ upper, bypassFrameOk f
  cur : st.currentTag = (st.handlers.headD default).tag
  core : coreOf st = coreOf st0

/-- Concrete fixtures for the closed evaluations below. -/
def env0 : Env := {}

def envTT : Env := { hostHasTimeTrack := true }

/-- A decode environment holding a mono 16-bit-integer file of a single
frame with sample value 5. -/
def aenvMono16 : AudioEnv :=
  { sfOpen := fun _ => some ⟨1, true, false, [[5]]⟩ }

/-- A descriptor asking for two samples of the file above. -/
def fiTwo : FileInfo := ⟨none, none, "f", 2, 0, 0⟩

/-- A silent descriptor of length three. -/
def fiSilent : FileInfo := ⟨none, none, "", 3, 0, 0⟩

/-- A parser state as seen just inside an open wavetrack tag. -/
def stWaveTrack : PState :=
  { currentTag := "wavetrack",
    handlers := [⟨"", "wavetrack", some (.trackH .waveT 0)⟩],
    tracks := [.waveT], waveTrack := some 0 }

/-- C6: a sequence tag whose maxsamples attribute parses to a
non-negative integer succeeds exactly when the value lies in
[1024, 64 * 1024 * 1024]; outside the bounds the handler records a
fatal error. -/
theorem sequence_maxsamples_bounds (env : Env) (st : PState) (v : AttrValue)
    (n : Int) (hv : v.asInt64 = some n) (hn : 0 ≤ n) :
    ((handleSequence env st [("maxsamples", v)]).1 = true ↔
      1024 ≤ n ∧ n ≤ 67108864) ∧
    (¬ (1024 ≤ n ∧ n ≤ 67108864) →
      (handleSequence env st [("maxsamples", v)]).2.2.updateResult = .Failed) := by
  have hn' : ¬ n < 0 := not_lt.mpr hn
  by_cases h1 : n < 1024
  · constructor
    · simp only [handleSequence, handleSequenceLoop, hv, hn', h1]
      simp
      omega
    · intro _
      simp [handleSequence, handleSequenceLoop, hv, hn', h1, setError]
  · by_cases h2 : n > 64 * 1024 * 1024
    · have h2' : (67108864 : Int) < n := by omega
      constructor
      · simp only [handleSequence, handleSequenceLoop, hv, hn', h1, h2]
        simp [h2']
      · intro _
        simp [handleSequence, handleSequenceLoop, hv, hn', h1, h2, h2', setError]
    · constructor
      · simp only [handleSequence, handleSequenceLoop, hv, hn', h1, h2]
        simp
        omega
      · intro hc
        exact absurd ⟨by omega, by omega⟩ hc

/-- Witness for C6 at the four boundary values from the specification. -/
theorem sequence_maxsamples_bounds_witness :
    (handleSequence env0 {}
      [("maxsamples", { raw := "1023", asInt64 := some 1023 })]).1 = false ∧
    (handleSequence env0 {}
      [("maxsamples", { raw := "1024", asInt64 := some 1024 })]).1 = true ∧
    (handleSequence env0 {}
      [("maxsamples", { raw := "67108864", asInt64 := some 67108864 })]).1 = true ∧
    (handleSequence env0 {}
      [("maxsamples", { raw := "67108865", asInt64 := some 67108865 })]).1 = false := by
  refine ⟨?_, ?_, ?_, ?_⟩
  · have h := (sequence_maxsamples_bounds env0 {}
      { raw := "1023", asInt64 := some 1023 } 1023 rfl (by decide)).1
    exact Bool.eq_false_iff.mpr (fun hb => absurd (h.mp hb) (by decide))
  · exact (sequence_maxsamples_bounds env0 {}
      { raw := "1024", asInt64 := some 1024 } 1024 rfl (by decide)).1.mpr (by decide)
  · exact (sequence_maxsamples_bounds env0 {}
      { raw := "67108864", asInt64 := some 67108864 } 67108864 rfl
        (by decide)).1.mpr (by decide)
  · have h := (sequence_maxsamples_bounds env0 {}
      { raw := "67108865", asInt64 := some 67108865 } 67108865 rfl (by decide)).1
    exact Bool.eq_false_iff.mpr (fun hb => absurd (h.mp hb) (by decide))

/-- C4 counterexample: a control-point tag whose parent is not an
envelope is NOT a fatal error; the dispatcher succeeds, records no
error, and pushes a frame with a null owner. -/
theorem controlpoint_context_noop_cex :
    (handleXMLTag env0 stWaveTrack "controlpoint" []).1 = true ∧
    (handleXMLTag env0 stWaveTrack "controlpoint" []).2.updateResult = .Success ∧
    (handleXMLTag env0 stWaveTrack "controlpoint" []).2.errorMsg = none ∧
    (handleXMLTag env0 stWaveTrack "controlpoint" []).2.handlers.headD default =
      ⟨"wavetrack", "controlpoint", none⟩ := by
  decide

/-- C4 as amended: an open tag outside the fixed vocabulary is a fatal
error that fails the import; a label outside a label-track and a tag
outside tags likewise; but a control-point whose parent is not an
envelope is a silent no-op with a null-owner frame; and a failed parse
commits nothing to the host project. -/
theorem dispatch_fatal_rules (env : Env) (st : PState) (tag : String)
    (attrs : Attrs) (hres : st.updateResult = .Success) :
    (tag ∉ recognizedTags →
      (handleXMLTag env st tag attrs).1 = false ∧
      (handleXMLTag env st tag attrs).2.updateResult = .Failed ∧
      (handleXMLTag env st tag attrs).2.errorMsg.isSome = true) ∧
    (st.currentTag ≠ "labeltrack" →
      (handleXMLTag env st "label" attrs).1 = false ∧
      (handleXMLTag env st "label" attrs).2.updateResult = .Failed) ∧
    (st.currentTag ≠ "tags" →
      (handleXMLTag env st "tag" attrs).1 = false ∧
      (handleXMLTag env st "tag" attrs).2.updateResult = .Failed) ∧
    (st.currentTag ≠ "envelope" →
      (handleXMLTag env st "controlpoint" attrs).1 = true ∧
      (handleXMLTag env st "controlpoint" attrs).2.updateResult = .Success ∧
      (handleXMLTag env st "controlpoint" attrs).2.handlers.headD default =
        ⟨st.currentTag, "controlpoint", none⟩) ∧
    (∀ (aenv : AudioEnv) (progress : Nat → Int → Int → ProgressResult)
       (xmlOk : Bool) (events : List XmlEvent) (filename : String) (host : Host),
      (runEvents env { filename := filename } events).1 = false →
      importAUP env aenv progress xmlOk events filename host = (.Failed, host, [])) := by
  refine ⟨?_, ?_, ?_, ?_, ?_⟩
  · intro h
    simp only [recognizedTags, List.mem_cons, List.not_mem_nil, or_false, not_or] at h
    obtain ⟨h1, h2, h3, h4, h5, h6, h7, h8, h9, h10, h11, h12, h13, h14, h15,
      h16, h17⟩ := h
    simp [handleXMLTag, hres, dispatchTag, h1, h2, h3, h4, h5, h6, h7, h8, h9,
      h10, h11, h12, h13, h14, h15, h16, h17, setError]
  · intro h
    simp [handleXMLTag, hres, dispatchTag, handleLabel, h, setError]
  · intro h
    simp [handleXMLTag, hres, dispatchTag, handleTag, h, setError]
  · intro h
    simp [handleXMLTag, hres, dispatchTag, handleControlPoint, h]
  · intro aenv progress xmlOk events filename host h
    simp [importAUP, h]

theorem projStepRest_req (env : Env) (st : PState) (a : String) (v : AttrValue)
    (req : Nat) (out : PState × Nat) (h : projStepRest env st a v req = .ok out) :
    out.2 = req := by
  rw [projStepRest] at h
  repeat' split at h
  all_goals solve
    | (subst h; rfl)
    | simp_all
    | (injection h with h2; subst h2; rfl)

theorem projStepRequired_req (env : Env) (st : PState) (a : String)
    (v : AttrValue) (req : Nat) (out : PState × Nat)
    (h : projStepRequired env st a v req = .ok out) :
    out.2 = req + (if isRequiredProjAttr a then 1 else 0) := by
  rw [projStepRequired] at h
  repeat' split at h
  all_goals solve
    | (subst h; simp_all [isRequiredProjAttr])
    | (injection h with h2; subst h2; simp_all [isRequiredProjAttr])
    | simp_all [isRequiredProjAttr]
    | (have hr := projStepRest_req _ _ _ _ _ _ h
       simp_all [isRequiredProjAttr])

theorem projStepView_req (env : Env) (st : PState) (a : String) (v : AttrValue)
    (req : Nat) (out : PState × Nat)
    (h : projStepView env st a v req = .ok out) :
    out.2 = req + (if isRequiredProjAttr a then 1 else 0) := by
  rw [projStepView] at h
  repeat' split at h
  all_goals solve
    | (subst h; simp_all [isRequiredProjAttr])
    | (injection h with h2; subst h2; simp_all [isRequiredProjAttr])
    | simp_all [isRequiredProjAttr]
    | (have hr := projStepRequired_req _ _ _ _ _ _ h
       simp_all [isRequiredProjAttr])

theorem handleProjectLoop_req (env : Env) :
    ∀ (attrs : Attrs) (st : PState) (req : Nat) (out : PState × Nat),
      handleProjectLoop env st req attrs = .ok out →
      out.2 = req + reqCount attrs := by
  intro attrs
  induction attrs with
  | nil =>
    intro st req out h
    rw [handleProjectLoop] at h
    cases h
    simp [reqCount]
  | cons p rest ih =>
    obtain ⟨a, v⟩ := p
    intro st req out h
    rw [handleProjectLoop] at h
    split at h
    · simp_all
    next st2 req2 heq =>
      have h1 := projStepView_req _ _ _ _ _ _ heq
      have h2 := ih _ _ _ h
      simp [reqCount, List.countP_cons] at h2 ⊢
      omega

theorem reqCount_lt_three (attrs : Attrs)
    (hnd : (attrs.map Prod.fst).Nodup)
    (hmiss : "version" ∉ attrs.map Prod.fst ∨
             "audacityversion" ∉ attrs.map Prod.fst ∨
             "projname" ∉ attrs.map Prod.fst) :
    reqCount attrs < 3 := by
  have e : reqCount attrs =
      ((attrs.map Prod.fst).filter isRequiredProjAttr).length := by
    rw [← List.countP_eq_length_filter, List.countP_map]
    rfl
  have key : ∀ (l : List String), l.Nodup →
      ("version" ∉ l ∨ "audacityversion" ∉ l ∨ "projname" ∉ l) →
      (l.filter isRequiredProjAttr).length < 3 := by
    intro l hl hm
    have hnd2 : (l.filter isRequiredProjAttr).Nodup := hl.filter _
    rcases hm with h | h | h
    · have hsub : l.filter isRequiredProjAttr ⊆ ["audacityversion", "projname"] := by
        intro b hb
        simp only [List.mem_filter, isRequiredProjAttr, Bool.or_eq_true,
          beq_iff_eq] at hb
        rcases hb.2 with (rfl | rfl) | rfl
        · exact absurd hb.1 h
        · simp
        · simp
      have := (List.subperm_of_subset hnd2 hsub).length_le
      simp at this
      omega
    · have hsub : l.filter isRequiredProjAttr ⊆ ["version", "projname"] := by
        intro b hb
        simp only [List.mem_filter, isRequiredProjAttr, Bool.or_eq_true,
          beq_iff_eq] at hb
        rcases hb.2 with (rfl | rfl) | rfl
        · simp
        · exact absurd hb.1 h
        · simp
      have := (List.subperm_of_subset hnd2 hsub).length_le
      simp at this
      omega
    · have hsub : l.filter isRequiredProjAttr ⊆ ["version", "audacityversion"] := by
        intro b hb
        simp only [List.mem_filter, isRequiredProjAttr, Bool.or_eq_true,
          beq_iff_eq] at hb
        rcases hb.2 with (rfl | rfl) | rfl
        · simp
        · simp
        · exact absurd hb.1 h
      have := (List.subperm_of_subset hnd2 hsub).length_le
      simp at this
      omega
  rw [e]
  exact key _ hnd hmiss

/-- C5: if the root tag's attribute list (with pairwise distinct names,
as any wellformed document guarantees) lacks at least one of version,
audacityversion and projname, then HandleProject fails the
requiredTags gate and the dispatcher records a fatal error, no matter
what else the list contains. -/
theorem project_required_attrs_gate (env : Env) (st : PState) (tag : String)
    (attrs : Attrs) (hres : st.updateResult = .Success)
    (htag : tag = "project" ∨ tag = "audacityproject")
    (hnd : (attrs.map Prod.fst).Nodup)
    (hmiss : "version" ∉ attrs.map Prod.fst ∨
             "audacityversion" ∉ attrs.map Prod.fst ∨
             "projname" ∉ attrs.map Prod.fst) :
    (handleXMLTag env st tag attrs).1 = false ∧
    (handleXMLTag env st tag attrs).2.updateResult = .Failed := by
  have hc := reqCount_lt_three attrs hnd hmiss
  have hproj : ∀ st1 : PState, (handleProject env st1 attrs).1 = false := by
    intro st1
    unfold handleProject
    cases hl : handleProjectLoop env st1 0 attrs with
    | error st2 => simp
    | ok out =>
      obtain ⟨st2, req⟩ := out
      have hreq := handleProjectLoop_req env attrs st1 0 (st2, req) hl
      simp only at hreq
      have hlt : req < 3 := by omega
      simp [hlt]
  rcases htag with rfl | rfl <;>
    simp [handleXMLTag, hres, dispatchTag, hproj, setError]

/-- Witness for C5: a root tag carrying only version and
audacityversion (projname missing) is rejected. -/
theorem project_required_attrs_gate_witness :
    (handleXMLTag env0 {} "project"
      [("version", { raw := "1" }), ("audacityversion", { raw := "2" })]).1 =
      false ∧
    (handleXMLTag env0 {} "project"
      [("version", { raw := "1" }),
       ("audacityversion", { raw := "2" })]).2.updateResult = .Failed :=
  project_required_attrs_gate env0 {} "project"
    [("version", { raw := "1" }), ("audacityversion", { raw := "2" })]
    rfl (Or.inl rfl) (by decide) (Or.inr (Or.inr (by decide)))

/-- Witness for C4 as amended: a bogus tag is fatal and a failed parse
leaves the host untouched. -/
theorem dispatch_fatal_rules_witness :
    (handleXMLTag env0 {} "bogus" []).1 = false ∧
    (handleXMLTag env0 {} "bogus" []).2.updateResult = .Failed ∧
    importAUP env0 {} (fun _ _ _ => .Success) true [.openTag "bogus" []] "f" {} =
      (.Failed, {}, []) := by
  have h := dispatch_fatal_rules env0 {} "bogus" [] rfl
  refine ⟨(h.1 (by decide)).1, (h.1 (by decide)).2.1, ?_⟩
  exact h.2.2.2.2 {} (fun _ _ _ => .Success) true [.openTag "bogus" []] "f" {}
    (by decide)

theorem eqCI_chain (a x y : String) (h1 : eqCI a x = true)
    (h2 : eqCI x y = false) : eqCI a y = false := by
  simp only [eqCI, beq_iff_eq, beq_eq_false_iff_ne] at *
  rw [h1]
  exact h2

theorem handleSimpleBlockFileLoop_spec (env : Env) :
    ∀ (attrs : Attrs) (st : PState) (fname : String) (len : Int)
      (out : PState × String × Int),
      handleSimpleBlockFileLoop env st fname len attrs = .ok out →
      out.1.files = st.files ∧
      (0 ≤ len → 0 ≤ out.2.2) ∧ (0 < len → 0 < out.2.2) ∧
      (hasAttr attrs "len" = true → 0 < out.2.2) := by
  intro attrs
  induction attrs with
  | nil =>
    intro st fname len out h
    rw [handleSimpleBlockFileLoop] at h
    injection h with h2
    subst h2
    simp [hasAttr]
  | cons p rest ih =>
    obtain ⟨a, v⟩ := p
    intro st fname len out h
    rw [handleSimpleBlockFileLoop] at h
    by_cases hfn : eqCI a "filename"
    · rw [if_pos hfn] at h
      have hne : (a == "len") = false := by
        rcases eq_or_ne a "len" with rfl | hne2
        · exact absurd hfn (by decide)
        · exact beq_eq_false_iff_ne.mpr hne2
      have hhas : hasAttr ((a, v) :: rest) "len" = hasAttr rest "len" := by
        simp [hasAttr, hne]
      split at h
      · split at h
        next path heq =>
          have IH := ih _ _ _ _ h
          exact ⟨IH.1, IH.2.1, IH.2.2.1, fun hl => IH.2.2.2 (hhas ▸ hl)⟩
        next heq =>
          have IH := ih _ _ _ _ h
          refine ⟨?_, IH.2.1, IH.2.2.1, fun hl => IH.2.2.2 (hhas ▸ hl)⟩
          rw [IH.1]
          simp [setWarning]
      · have IH := ih _ _ _ _ h
        exact ⟨IH.1, IH.2.1, IH.2.2.1, fun hl => IH.2.2.2 (hhas ▸ hl)⟩
    · rw [if_neg hfn] at h
      by_cases hlen : a = "len"
      · rw [if_pos hlen] at h
        rcases hv : v.asInt64 with _ | n
        · simp only [hv] at h
          simp at h
        · simp only [hv] at h
          by_cases hn : n ≤ 0
          · rw [if_pos hn] at h
            simp at h
          · rw [if_neg hn] at h
            have IH := ih _ _ _ _ h
            have hpos : 0 < out.2.2 := IH.2.2.1 (by omega)
            exact ⟨IH.1, fun _ => by omega, fun _ => hpos, fun _ => hpos⟩
      · rw [if_neg hlen] at h
        have IH := ih _ _ _ _ h
        have hne : (a == "len") = false := beq_eq_false_iff_ne.mpr hlen
        have hhas : hasAttr ((a, v) :: rest) "len" = hasAttr rest "len" := by
          simp [hasAttr, hne]
        exact ⟨IH.1, IH.2.1, IH.2.2.1, fun hl => IH.2.2.2 (hhas ▸ hl)⟩

theorem handleSilentBlockFileLoop_spec :
    ∀ (attrs : Attrs) (st : PState) (len : Int) (out : PState × Int),
      handleSilentBlockFileLoop st len attrs = .ok out →
      out.1.files = st.files ∧
      (0 ≤ len → 0 ≤ out.2) ∧ (0 < len → 0 < out.2) ∧
      (hasAttr attrs "len" = true → 0 < out.2) := by
  intro attrs
  induction attrs with
  | nil =>
    intro st len out h
    rw [handleSilentBlockFileLoop] at h
    injection h with h2
    subst h2
    simp [hasAttr]
  | cons p rest ih =>
    obtain ⟨a, v⟩ := p
    intro st len out h
    rw [handleSilentBlockFileLoop] at h
    by_cases hlen : a = "len"
    · rw [if_pos hlen] at h
      rcases hv : v.asInt64 with _ | n
      · simp only [hv] at h
        simp at h
      · simp only [hv] at h
        by_cases hn : n > 0
        · rw [if_neg (by simpa using hn)] at h
          have IH := ih _ _ _ h
          have hpos : 0 < out.2 := IH.2.2.1 hn
          exact ⟨IH.1, fun _ => by omega, fun _ => hpos, fun _ => hpos⟩
        · rw [if_pos (by simpa using hn)] at h
          simp at h
    · rw [if_neg hlen] at h
      have IH := ih _ _ _ h
      have hne : (a == "len") = false := beq_eq_false_iff_ne.mpr hlen
      have hhas : hasAttr ((a, v) :: rest) "len" = hasAttr rest "len" := by
        simp [hasAttr, hne]
      exact ⟨IH.1, IH.2.1, IH.2.2.1, fun hl => IH.2.2.2 (hhas ▸ hl)⟩

theorem handlePCMAliasLoop_spec (env : Env) :
    ∀ (attrs : Attrs) (st : PState) (fname : String) (start len channel : Int)
      (out : PState × String × Int × Int × Int),
      handlePCMAliasLoop env st fname start len channel attrs = .ok out →
      out.1.files = st.files ∧
      (0 ≤ len → 0 ≤ out.2.2.2.1) ∧ (0 < len → 0 < out.2.2.2.1) ∧
      (hasAttrCI attrs "aliaslen" = true → 0 < out.2.2.2.1) := by
  intro attrs
  induction attrs with
  | nil =>
    intro st fname start len channel out h
    rw [handlePCMAliasLoop] at h
    injection h with h2
    subst h2
    simp [hasAttrCI]
  | cons p rest ih =>
    obtain ⟨a, v⟩ := p
    intro st fname start len channel out h
    rw [handlePCMAliasLoop] at h
    by_cases hf : eqCI a "aliasfile"
    · rw [if_pos hf] at h
      have hne : eqCI a "aliaslen" = false := eqCI_chain a "aliasfile" "aliaslen" hf (by decide)
      have hhas : hasAttrCI ((a, v) :: rest) "aliaslen" = hasAttrCI rest "aliaslen" := by
        simp [hasAttrCI, hne]
      split at h
      · have IH := ih _ _ _ _ _ _ h
        exact ⟨IH.1, IH.2.1, IH.2.2.1, fun hl => IH.2.2.2 (hhas ▸ hl)⟩
      · split at h
        · have IH := ih _ _ _ _ _ _ h
          exact ⟨IH.1, IH.2.1, IH.2.2.1, fun hl => IH.2.2.2 (hhas ▸ hl)⟩
        · split at h
          · have IH := ih _ _ _ _ _ _ h
            refine ⟨?_, IH.2.1, IH.2.2.1, fun hl => IH.2.2.2 (hhas ▸ hl)⟩
            rw [IH.1]
            simp [setWarning]
          · have IH := ih _ _ _ _ _ _ h
            exact ⟨IH.1, IH.2.1, IH.2.2.1, fun hl => IH.2.2.2 (hhas ▸ hl)⟩
    · rw [if_neg hf] at h
      by_cases hs : eqCI a "aliasstart"
      · rw [if_pos hs] at h
        have hne : eqCI a "aliaslen" = false := eqCI_chain a "aliasstart" "aliaslen" hs (by decide)
        have hhas : hasAttrCI ((a, v) :: rest) "aliaslen" = hasAttrCI rest "aliaslen" := by
          simp [hasAttrCI, hne]
        rcases hv : v.asInt64 with _ | n
        · simp only [hv] at h
          simp at h
        · simp only [hv] at h
          by_cases hn : n < 0
          · rw [if_pos hn] at h
            simp at h
          · rw [if_neg hn] at h
            have IH := ih _ _ _ _ _ _ h
            exact ⟨IH.1, IH.2.1, IH.2.2.1, fun hl => IH.2.2.2 (hhas ▸ hl)⟩
      · rw [if_neg hs] at h
        by_cases hl2 : eqCI a "aliaslen"
        · rw [if_pos hl2] at h
          rcases hv : v.asInt64 with _ | n
          · simp only [hv] at h
            simp at h
          · simp only [hv] at h
            by_cases hn : n ≤ 0
            · rw [if_pos hn] at h
              simp at h
            · rw [if_neg hn] at h
              have IH := ih _ _ _ _ _ _ h
              have hpos : 0 < out.2.2.2.1 := IH.2.2.1 (by omega)
              exact ⟨IH.1, fun _ => by omega, fun _ => hpos, fun _ => hpos⟩
        · rw [if_neg hl2] at h
          have hhas : hasAttrCI ((a, v) :: rest) "aliaslen" = hasAttrCI rest "aliaslen" := by
            simp [hasAttrCI, hl2]
          by_cases hc : eqCI a "aliaschannel"
          · rw [if_pos hc] at h
            rcases hv : v.asLong with _ | n
            · simp only [hv] at h
              simp at h
            · simp only [hv] at h
              by_cases hn : n < 0
              · rw [if_pos hn] at h
                simp at h
              · rw [if_neg hn] at h
                have IH := ih _ _ _ _ _ _ h
                exact ⟨IH.1, IH.2.1, IH.2.2.1, fun hl => IH.2.2.2 (hhas ▸ hl)⟩
          · rw [if_neg hc] at h
            have IH := ih _ _ _ _ _ _ h
            exact ⟨IH.1, IH.2.1, IH.2.2.1, fun hl => IH.2.2.2 (hhas ▸ hl)⟩

/-- C7 counterexample: a simpleblockfile tag with no attributes at all
is accepted and appends a zero-length descriptor to the queue, so not
every queued descriptor has strictly positive length. -/
theorem blockfile_missing_len_cex :
    (handleSimpleBlockFile env0 {} []).1 = true ∧
    (handleSimpleBlockFile env0 {} []).2.2.updateResult = .Success ∧
    (handleSimpleBlockFile env0 {} []).2.2.files =
      [⟨none, none, "", 0, 0, 0⟩] := by
  decide

/-- C7 as amended: each of the three block-file handlers appends exactly
one descriptor, always of non-negative length; the length is strictly
positive whenever the tag actually carries its len (or aliaslen)
attribute, because an explicit non-positive or malformed length is a
fatal error; a tag with no length attribute appends a zero-length
descriptor without error. -/
theorem blockfile_len_validation (env : Env) (st : PState) (attrs : Attrs) :
    ((handleSimpleBlockFile env st attrs).1 = true →
      ∃ fi, (handleSimpleBlockFile env st attrs).2.2.files = st.files ++ [fi] ∧
        0 ≤ fi.len ∧ (hasAttr attrs "len" = true → 0 < fi.len)) ∧
    ((handleSilentBlockFile st attrs).1 = true →
      ∃ fi, (handleSilentBlockFile st attrs).2.2.files = st.files ++ [fi] ∧
        0 ≤ fi.len ∧ (hasAttr attrs "len" = true → 0 < fi.len)) ∧
    ((handlePCMAliasBlockFile env st attrs).1 = true →
      ∃ fi, (handlePCMAliasBlockFile env st attrs).2.2.files = st.files ++ [fi] ∧
        0 ≤ fi.len ∧ (hasAttrCI attrs "aliaslen" = true → 0 < fi.len)) ∧
    (∀ (v : AttrValue) (n : Int), v.asInt64 = some n → n ≤ 0 →
      (handleSimpleBlockFile env st [("len", v)]).1 = false ∧
      (handleSimpleBlockFile env st [("len", v)]).2.2.updateResult = .Failed ∧
      (handleSilentBlockFile st [("len", v)]).1 = false ∧
      (handlePCMAliasBlockFile env st [("aliaslen", v)]).1 = false) := by
  refine ⟨?_, ?_, ?_, ?_⟩
  · intro hs
    unfold handleSimpleBlockFile at hs ⊢
    cases hl : handleSimpleBlockFileLoop env st "" 0 attrs with
    | error st2 => rw [hl] at hs; simp at hs
    | ok out =>
      obtain ⟨st2, fname, len⟩ := out
      have IH := handleSimpleBlockFileLoop_spec env attrs st "" 0 _ hl
      refine ⟨⟨st2.waveTrack, st2.clip, fname, len, 0, 0⟩, ?_, ?_, ?_⟩
      · have h1 : st2.files = st.files := IH.1
        simp [addFile, h1]
      · exact IH.2.1 le_rfl
      · exact fun hl2 => IH.2.2.2 hl2
  · intro hs
    unfold handleSilentBlockFile at hs ⊢
    cases hl : handleSilentBlockFileLoop st 0 attrs with
    | error st2 => rw [hl] at hs; simp at hs
    | ok out =>
      obtain ⟨st2, len⟩ := out
      have IH := handleSilentBlockFileLoop_spec attrs st 0 _ hl
      refine ⟨⟨st2.waveTrack, st2.clip, "", len, 0, 0⟩, ?_, ?_, ?_⟩
      · have h1 : st2.files = st.files := IH.1
        simp [addFile, h1]
      · exact IH.2.1 le_rfl
      · exact fun hl2 => IH.2.2.2 hl2
  · intro hs
    unfold handlePCMAliasBlockFile at hs ⊢
    cases hl : handlePCMAliasLoop env st "" 0 0 0 attrs with
    | error st2 => rw [hl] at hs; simp at hs
    | ok out =>
      obtain ⟨st2, fname, start, len, channel⟩ := out
      have IH := handlePCMAliasLoop_spec env attrs st "" 0 0 0 _ hl
      refine ⟨⟨st2.waveTrack, st2.clip, fname, len, start, channel⟩, ?_, ?_, ?_⟩
      · have h1 : st2.files = st.files := IH.1
        simp [addFile, h1]
      · exact IH.2.1 le_rfl
      · exact fun hl2 => IH.2.2.2 hl2
  · intro v n hv hn
    have h1 : ¬ (0 : Int) < n := by omega
    refine ⟨?_, ?_, ?_, ?_⟩
    · simp [handleSimpleBlockFile, handleSimpleBlockFileLoop,
        show eqCI "len" "filename" = false from by decide, hv, hn]
    · simp [handleSimpleBlockFile, handleSimpleBlockFileLoop,
        show eqCI "len" "filename" = false from by decide, hv, hn, setError]
    · simp [handleSilentBlockFile, handleSilentBlockFileLoop, hv, h1]
    · simp [handlePCMAliasBlockFile, handlePCMAliasLoop,
        show eqCI "aliaslen" "aliasfile" = false from by decide,
        show eqCI "aliaslen" "aliasstart" = false from by decide,
        show eqCI "aliaslen" "aliaslen" = true from by decide, hv, hn]

/-- Witness for C7 as amended at a simpleblockfile carrying len 4. -/
theorem blockfile_len_validation_witness :
    ∃ fi, (handleSimpleBlockFile env0 {}
        [("len", { raw := "4", asInt64 := some 4 })]).2.2.files = [] ++ [fi] ∧
      0 ≤ fi.len ∧
      (hasAttr [("len", { raw := "4", asInt64 := some 4 })] "len" = true →
        0 < fi.len) :=
  (blockfile_len_validation env0 {}
    [("len", { raw := "4", asInt64 := some 4 })]).1 (by decide)

/-- C2 as amended: a descriptor with an empty path resolves to silence of
exactly the requested length with no warning; failure to open or seek,
and a short read on the checked decode paths, resolve to a warning plus
silence of exactly the requested length; only user cancellation stops
the descriptor loop, so decode problems never abort the import.  (The
exception carved out by the counterexample: the single-channel 16-bit
integer path does not check the read count, see C10.) -/
theorem resolveDescriptor_silence_substitution (aenv : AudioEnv)
    (fmt : SampleFormat) (fi : FileInfo) :
    (fi.path = "" →
      resolveDescriptor aenv fmt fi = ⟨[], .silence fi.len, true⟩) ∧
    (fi.path ≠ "" → aenv.fopenOk fi.path = false →
      resolveDescriptor aenv fmt fi =
        ⟨[openWarnMsg fi.path, processWarnMsg fi.path], .silence fi.len, false⟩) ∧
    (fi.path ≠ "" → aenv.fopenOk fi.path = true → aenv.sfOpen fi.path = none →
      resolveDescriptor aenv fmt fi =
        ⟨[openWarnMsg fi.path, processWarnMsg fi.path], .silence fi.len, false⟩) ∧
    (∀ sf : SFile, fi.path ≠ "" → aenv.fopenOk fi.path = true →
      aenv.sfOpen fi.path = some sf → fi.origin > 0 →
      aenv.seekOk sf fi.origin = false →
      resolveDescriptor aenv fmt fi =
        ⟨[seekWarnMsg fi.path, processWarnMsg fi.path], .silence fi.len, false⟩) ∧
    (∀ sf : SFile, fi.path ≠ "" → aenv.fopenOk fi.path = true →
      aenv.sfOpen fi.path = some sf →
      (fi.origin > 0 → aenv.seekOk sf fi.origin = true) →
      (sf.frames.drop fi.origin.toNat).length < fi.len.toNat →
      ¬ (sf.channels = 1 ∧ fmt = .int16Sample ∧ sf.subtypeInteger = true) →
      resolveDescriptor aenv fmt fi =
        ⟨[readWarnMsg fi.len.toNat fi.path, processWarnMsg fi.path],
         .silence fi.len, false⟩) ∧
    (∀ (files : List FileInfo) (progress : Nat → Int → Int → ProgressResult)
       (total : Int) (idx : Nat) (processed : Int),
      (resolveLoop aenv fmt progress total idx processed files).1 = .Success →
      (resolveLoop aenv fmt progress total idx processed files).2.length =
        files.length) := by
  refine ⟨?_, ?_, ?_, ?_, ?_, ?_⟩
  · intro hp
    simp [resolveDescriptor, hp]
  · intro hp hopen
    simp [resolveDescriptor, hp, addSamples, hopen, decodeFail]
  · intro hp hopen hsf
    simp [resolveDescriptor, hp, addSamples, hopen, hsf, decodeFail]
  · intro sf hp hopen hsf horig hseek
    simp [resolveDescriptor, hp, addSamples, hopen, hsf, horig, hseek, decodeFail]
  · intro sf hp hopen hsf hseek hshort hnot1
    have hmin : min fi.len.toNat (sf.frames.drop fi.origin.toNat).length ≠
        fi.len.toNat := by
      rw [Nat.min_eq_right (le_of_lt hshort)]
      omega
    have hcseek : ¬ (fi.origin > 0 ∧ ¬ aenv.seekOk sf fi.origin = true) := by
      by_cases ho : fi.origin > 0
      · simp [ho, hseek ho]
      · simp [ho]
    rw [List.length_drop] at hshort
    rw [resolveDescriptor, if_neg hp, addSamples, if_neg (by simp [hopen])]
    simp only [hsf]
    rw [if_neg hcseek]
    split
    · next hcond => exact absurd hcond hnot1
    · split
      · simp [decodeMono24, hmin, decodeFail]
        omega
      · split
        · simp [decode16Select, hmin, decodeFail]
          omega
        · simp [decodeFloat, hmin, decodeFail]
          omega
  · intro files progress total
    induction files with
    | nil => intro idx processed h; rfl
    | cons fi2 rest ih =>
      intro idx processed h
      rw [resolveLoop] at h ⊢
      by_cases hr : progress idx processed total ≠ .Success
      · rw [if_pos hr] at h
        exact absurd h hr
      · rw [if_neg hr] at h ⊢
        simp only [List.length_cons]
        have := ih (idx + 1) (processed + fi2.len) h
        omega

/-- C2 counterexample: on the single-channel 16-bit integer path a short
read (file has one frame, descriptor asks for two) appends a raw
two-sample run, not silence, and records no warning; and a silent
descriptor (empty path) yields silence but records no warning either,
so the claim as stated fails on both counts. -/
theorem resolveDescriptor_silence_claim_cex :
    (resolveDescriptor aenvMono16 .int16Sample fiTwo).run ≠
      Run.silence fiTwo.len ∧
    (resolveDescriptor aenvMono16 .int16Sample fiTwo).warns = [] ∧
    (resolveDescriptor aenvMono16 .int16Sample fiTwo).run =
      Run.samples [5, 0] ∧
    (resolveDescriptor aenvMono16 .int16Sample fiSilent).run =
      Run.silence fiSilent.len ∧
    (resolveDescriptor aenvMono16 .int16Sample fiSilent).warns = [] := by
  decide

/-- Witness for C2 as amended at a descriptor whose file fails to open. -/
theorem resolveDescriptor_silence_substitution_witness :
    resolveDescriptor { fopenOk := fun _ => false } .int16Sample
      ⟨none, none, "x", 7, 0, 0⟩ =
      ⟨[openWarnMsg "x", processWarnMsg "x"], .silence 7, false⟩ :=
  (resolveDescriptor_silence_substitution { fopenOk := fun _ => false }
    .int16Sample ⟨none, none, "x", 7, 0, 0⟩).2.1 (by decide) rfl

/-- C8 as amended: the mono 16-bit integer direct path and the 16-bit
direct path with channel select produce identical output (and no
warnings) whenever the read delivers every requested frame; on a short
read the two paths differ observably (raw requested-count append
without warning versus silence with warning), so path selection is not
a pure optimization; AddSamples dispatches eligible mono 16-bit integer
input to the unchecked direct path.  (Equivalence with the
float-normalized conversion path is a floating-point property outside
this integer model.) -/
theorem fastpath_equivalence_16bit (aenv : AudioEnv) (f : String)
    (avail : List (List Int)) (cnt : Nat) (len : Int) :
    (cnt ≤ avail.length →
      decodeMono16 aenv avail cnt = decode16Select aenv f avail cnt 0 len) ∧
    (avail.length < cnt →
      decodeMono16 aenv avail cnt =
        ⟨[], .samples (((avail.take cnt).map (frameSample · 0)) ++
          junkFill aenv avail.length (cnt - avail.length)), true⟩ ∧
      decode16Select aenv f avail cnt 0 len =
        ⟨[readWarnMsg cnt f, processWarnMsg f], .silence len, false⟩) ∧
    (∀ (sf : SFile) (origin channel : Int),
      aenv.fopenOk f = true → aenv.sfOpen f = some sf →
      (origin > 0 → aenv.seekOk sf origin = true) →
      sf.channels = 1 → sf.subtypeInteger = true →
      addSamples aenv .int16Sample f len origin channel =
        decodeMono16 aenv (sf.frames.drop origin.toNat) len.toNat) := by
  refine ⟨?_, ?_, ?_⟩
  · intro hle
    have hmin : min cnt avail.length = cnt := Nat.min_eq_left hle
    simp [decodeMono16, decode16Select, hmin, junkFill]
  · intro hlt
    have hmin : min cnt avail.length = avail.length :=
      Nat.min_eq_right (le_of_lt hlt)
    constructor
    · simp [decodeMono16, hmin]
    · simp [decode16Select, hmin, decodeFail]
      omega
  · intro sf origin channel hopen hsf hseek hch hint
    have hcseek : ¬ (origin > 0 ∧ ¬ aenv.seekOk sf origin = true) := by
      by_cases ho : origin > 0
      · simp [ho, hseek ho]
      · simp [ho]
    rw [addSamples, if_neg (by simp [hopen])]
    simp only [hsf]
    rw [if_neg hcseek, if_pos ⟨hch, trivial, hint⟩]

/-- C8 counterexample: on a mono 16-bit integer file of one frame with a
request for two frames, both 16-bit paths are eligible but produce
different results, and AddSamples picks the unchecked one. -/
theorem fastpath_divergence_cex :
    decodeMono16 aenvMono16 [[5]] 2 ≠ decode16Select aenvMono16 "f" [[5]] 2 0 2 ∧
    addSamples aenvMono16 .int16Sample "f" 2 0 0 =
      decodeMono16 aenvMono16 [[5]] 2 := by
  decide

/-- Witness for C8 as amended on a full two-frame read. -/
theorem fastpath_equivalence_16bit_witness :
    decodeMono16 aenvMono16 [[5], [9]] 2 =
      decode16Select aenvMono16 "f" [[5], [9]] 2 0 2 :=
  (fastpath_equivalence_16bit aenvMono16 "f" [[5], [9]] 2 2).1 (by decide)

/-- C10: on the single-channel 16-bit integer fast path, AddSamples
appends exactly the requested number of samples, reports success and
records no warning, regardless of how many frames the read actually
delivered. -/
theorem mono16_path_unchecked_read (aenv : AudioEnv) (f : String)
    (len origin channel : Int) (sf : SFile)
    (hopen : aenv.fopenOk f = true) (hsf : aenv.sfOpen f = some sf)
    (hseek : origin > 0 → aenv.seekOk sf origin = true)
    (hch : sf.channels = 1) (hint : sf.subtypeInteger = true) :
    (addSamples aenv .int16Sample f len origin channel).success = true ∧
    (addSamples aenv .int16Sample f len origin channel).warns = [] ∧
    ∃ data, (addSamples aenv .int16Sample f len origin channel).run =
      .samples data ∧ data.length = len.toNat := by
  have hcseek : ¬ (origin > 0 ∧ ¬ aenv.seekOk sf origin = true) := by
    by_cases ho : origin > 0
    · simp [ho, hseek ho]
    · simp [ho]
  rw [addSamples, if_neg (by simp [hopen])]
  simp only [hsf]
  rw [if_neg hcseek, if_pos ⟨hch, trivial, hint⟩]
  refine ⟨rfl, rfl, _, rfl, ?_⟩
  simp [decodeMono16, junkFill]

/-- Witness for C10 at a one-frame file asked for two frames. -/
theorem mono16_path_unchecked_read_witness :
    (addSamples aenvMono16 .int16Sample "f" 2 0 0).success = true ∧
    (addSamples aenvMono16 .int16Sample "f" 2 0 0).warns = [] ∧
    ∃ data, (addSamples aenvMono16 .int16Sample "f" 2 0 0).run =
      .samples data ∧ data.length = (2 : Int).toNat :=
  mono16_path_unchecked_read aenvMono16 "f" 2 0 0 ⟨1, true, false, [[5]]⟩
    rfl rfl (fun _ => rfl) rfl rfl

/-- C1: Import adds nothing to the host project when the document fails
to parse (the result is Failed and the host is untouched), or when the
per-descriptor progress check reports cancellation or failure; the only
way the host track list changes is the single commit point after a
successful parse and a fully successful descriptor loop, where exactly
the constructed tracks are appended. -/
theorem importAUP_single_commit_point (env : Env) (aenv : AudioEnv)
    (progress : Nat → Int → Int → ProgressResult) (xmlOk : Bool)
    (events : List XmlEvent) (filename : String) (host : Host)
    (p : Bool × PState) (hp : p = runEvents env { filename := filename } events)
    (t : ProgressResult × List ResolveRes)
    (ht : t = resolveLoop aenv p.2.format progress p.2.totalSamples 0 0 p.2.files)
    (r : ProgressResult × Host × List ResolveRes)
    (hr : r = importAUP env aenv progress xmlOk events filename host) :
    (¬ (xmlOk = true ∧ p.1 = true) → r.1 = .Failed ∧ r.2.1 = host) ∧
    (t.1 ≠ .Success → r.2.1 = host ∧ r.2.1.tracks = host.tracks) ∧
    (r.2.1.tracks ≠ host.tracks →
      xmlOk = true ∧ p.1 = true ∧ t.1 = .Success ∧
      r.2.1.tracks = host.tracks ++ p.2.tracks) := by
  subst hp
  by_cases hx : (xmlOk && (runEvents env { filename := filename } events).1) = true
  · have hx12 : xmlOk = true ∧
        (runEvents env { filename := filename } events).1 = true := by
      simpa using hx
    obtain ⟨hx1, hx2⟩ := hx12
    by_cases he : (runEvents env { filename := filename } events).2.errorMsg.isSome ∧
        (runEvents env { filename := filename } events).2.updateResult = .Failed
    · rw [importAUP] at hr
      rw [if_neg (by simp [hx]), if_pos he] at hr
      subst hr ht
      refine ⟨fun hc => absurd ⟨hx1, hx2⟩ hc, fun _ => ⟨rfl, rfl⟩, fun hc => absurd rfl hc⟩
    · rw [importAUP] at hr
      rw [if_neg (by simp [hx]), if_neg he] at hr
      by_cases hts : t.1 = ProgressResult.Success
      · rw [← ht, if_neg (by simp [hts])] at hr
        by_cases hd : (host.histDirty || !host.tracks.isEmpty) = true
        · rw [if_pos hd] at hr
          subst hr
          refine ⟨fun hc => absurd ⟨hx1, hx2⟩ hc, fun hc => absurd hts hc,
            fun _ => ⟨hx1, hx2, hts, rfl⟩⟩
        · rw [if_neg hd] at hr
          subst hr
          refine ⟨fun hc => absurd ⟨hx1, hx2⟩ hc, fun hc => absurd hts hc,
            fun _ => ⟨hx1, hx2, hts, rfl⟩⟩
      · rw [← ht, if_pos hts] at hr
        subst hr
        refine ⟨fun hc => absurd ⟨hx1, hx2⟩ hc, fun _ => ⟨rfl, rfl⟩,
          fun hc => absurd rfl hc⟩
  · rw [importAUP] at hr
    rw [if_pos (by simpa using hx)] at hr
    subst hr
    refine ⟨fun _ => ⟨rfl, rfl⟩, fun _ => ⟨rfl, rfl⟩, fun hc => absurd rfl hc⟩

/-- C9: if the host project was dirty before the import began (a set
history dirty flag or a non-empty track list, which is the isDirty
disjunction of the source), no view-state field is touched; on a clean
host a committed import applies exactly the fields whose present flag
is set, in the fixed program order of applyProjectAttrs: rate, snap-to,
selection format, audio time format, frequency format, bandwidth
format, vertical position, horizontal position, zoom, sel0, sel1. -/
theorem importAUP_view_state_application (env : Env) (aenv : AudioEnv)
    (progress : Nat → Int → Int → ProgressResult) (xmlOk : Bool)
    (events : List XmlEvent) (filename : String) (host : Host)
    (p : Bool × PState) (hp : p = runEvents env { filename := filename } events)
    (t : ProgressResult × List ResolveRes)
    (ht : t = resolveLoop aenv p.2.format progress p.2.totalSamples 0 0 p.2.files)
    (r : ProgressResult × Host × List ResolveRes)
    (hr : r = importAUP env aenv progress xmlOk events filename host) :
    ((host.histDirty = true ∨ host.tracks ≠ []) → r.2.1.viewOps = host.viewOps) ∧
    (host.histDirty = false → host.tracks = [] → xmlOk = true → p.1 = true →
      ¬ (p.2.errorMsg.isSome ∧ p.2.updateResult = .Failed) → t.1 = .Success →
      r.2.1.viewOps = host.viewOps ++ applyProjectAttrs p.2.projAttrs) := by
  subst hp
  by_cases hx : (xmlOk && (runEvents env { filename := filename } events).1) = true
  · by_cases he : (runEvents env { filename := filename } events).2.errorMsg.isSome ∧
        (runEvents env { filename := filename } events).2.updateResult = .Failed
    · rw [importAUP, if_neg (by simp [hx]), if_pos he] at hr
      subst hr
      exact ⟨fun _ => rfl, fun _ _ _ _ hne _ => absurd he hne⟩
    · rw [importAUP, if_neg (by simp [hx]), if_neg he] at hr
      by_cases hts : t.1 = ProgressResult.Success
      · rw [← ht, if_neg (by simp [hts])] at hr
        by_cases hd : (host.histDirty || !host.tracks.isEmpty) = true
        · rw [if_pos hd] at hr
          subst hr
          refine ⟨fun _ => rfl, fun hd1 hd2 _ _ _ _ => ?_⟩
          rw [hd1, hd2] at hd
          simp at hd
        · rw [if_neg hd] at hr
          subst hr
          refine ⟨fun hdirty => ?_, fun _ _ _ _ _ _ => rfl⟩
          exfalso
          rcases hdirty with h1 | h1 <;> simp_all
      · rw [← ht, if_pos hts] at hr
        subst hr
        exact ⟨fun _ => rfl, fun _ _ _ _ _ hc => absurd hc hts⟩
  · rw [importAUP, if_pos (by simpa using hx)] at hr
    subst hr
    refine ⟨fun _ => rfl, fun _ _ hxo hpo _ _ => ?_⟩
    exact absurd (by simp [hxo, hpo]) hx

/-- Witness for C1: a cancelled import of one silent descriptor leaves
the host untouched. -/
theorem importAUP_single_commit_point_witness :
    (importAUP env0 {} (fun _ _ _ => .Cancelled) true
      [.openTag "silentblockfile" [("len", { raw := "4", asInt64 := some 4 })]]
      "f" {}).2.1 = ({} : Host) ∧
    (importAUP env0 {} (fun _ _ _ => .Cancelled) true
      [.openTag "silentblockfile" [("len", { raw := "4", asInt64 := some 4 })]]
      "f" {}).2.1.tracks = ({} : Host).tracks :=
  (importAUP_single_commit_point env0 {} (fun _ _ _ => .Cancelled) true
    [.openTag "silentblockfile" [("len", { raw := "4", asInt64 := some 4 })]]
    "f" {} _ rfl _ rfl _ rfl).2.1 (by decide)

/-- Witness for C9 at a dirty host: no view operation is emitted. -/
theorem importAUP_view_state_application_witness :
    (importAUP env0 {} (fun _ _ _ => .Success) true [] "f"
      { histDirty := true }).2.1.viewOps = [] :=
  (importAUP_view_state_application env0 {} (fun _ _ _ => .Success) true [] "f"
    { histDirty := true } _ rfl _ rfl _ rfl).1 (Or.inl rfl)

theorem bypass_open_step (env : Env) (st : PState) (t : String) (attrs : Attrs)
    (hres : st.updateResult = .Success)
    (ht : t = "envelope" ∨ t = "controlpoint")
    (hhead : (st.handlers.headD default).handler = none)
    (hcur2 : st.currentTag = "timetrack" ∨ st.currentTag = "envelope" ∨
      st.currentTag = "controlpoint") :
    handleXMLTag env st t attrs =
      (true,
       { st with
          parentTag := st.currentTag
          currentTag := t
          handlers := ⟨st.currentTag, t, none⟩ :: st.handlers }) := by
  have hhead2 : (st.handlers.head?.getD default).handler = none := by
    rw [← List.headD_eq_head?_getD]
    exact hhead
  rcases ht with rfl | rfl <;> rcases hcur2 with h | h | h <;>
    simp [handleXMLTag, hres, dispatchTag, handleEnvelope, handleControlPoint,
      h, hhead2]

theorem bypass_close_step (st : PState) (t : String)
    (hres : st.updateResult = .Success)
    (ht : t = "envelope" ∨ t = "controlpoint")
    (f : Frame) (rest : List Frame) (hh : st.handlers = f :: rest)
    (hrest : rest ≠ []) :
    handleXMLEndTag st t =
      { st with
         handlers := rest
         parentTag := (rest.headD default).parent
         currentTag := (rest.headD default).tag } := by
  rcases rest with _ | ⟨g, rest2⟩
  · exact absurd rfl hrest
  · rcases ht with rfl | rfl <;>
      simp [handleXMLEndTag, hres, hh]

theorem bypass_subtree_aux (env : Env) (ttp : String) (baseRest : List Frame)
    (st0 : PState) :
    ∀ (evs : List XmlEvent) (d : Nat) (st : PState),
      (∀ e ∈ evs, isEnvCp e = true) →
      nestedOk d evs = true →
      BypassInv (⟨ttp, "timetrack", none⟩ :: baseRest) st0 d st →
      (runEvents env st evs).1 = true ∧
      ∃ d2, BypassInv (⟨ttp, "timetrack", none⟩ :: baseRest) st0 d2
        (runEvents env st evs).2 := by
  intro evs
  induction evs with
  | nil =>
    intro d st _ _ inv
    exact ⟨rfl, d, inv⟩
  | cons e rest ih =>
    intro d st hall hnest inv
    obtain ⟨upper, hlen, hstack, hup⟩ := inv.stack
    have hhead : (st.handlers.headD default).handler = none := by
      rw [hstack]
      cases upper with
      | nil => simp
      | cons f u2 => simpa using (hup f (by simp)).1
    have hcur2 : st.currentTag = "timetrack" ∨ st.currentTag = "envelope" ∨
        st.currentTag = "controlpoint" := by
      rw [inv.cur, hstack]
      cases upper with
      | nil => simp
      | cons f u2 =>
        rcases (hup f (by simp)).2 with h | h <;> simp [h]
    have hall2 : ∀ e2 ∈ rest, isEnvCp e2 = true :=
      fun e2 he2 => hall _ (List.mem_cons_of_mem _ he2)
    cases e with
    | openTag t attrs =>
      have ht : t = "envelope" ∨ t = "controlpoint" := by
        have := hall _ (List.mem_cons_self _ _)
        simpa [isEnvCp] using this
      have hstep := bypass_open_step env st t attrs inv.ures ht hhead hcur2
      have hnest2 : nestedOk (d + 1) rest = true := by
        simpa [nestedOk] using hnest
      have inv2 : BypassInv (⟨ttp, "timetrack", none⟩ :: baseRest) st0 (d + 1)
          { st with
             parentTag := st.currentTag
             currentTag := t
             handlers := ⟨st.currentTag, t, none⟩ :: st.handlers } := by
        refine ⟨inv.ures, ⟨⟨st.currentTag, t, none⟩ :: upper, by simp [hlen],
          by simp [hstack], ?_⟩, by simp, ?_⟩
        · intro f hf
          rcases List.mem_cons.mp hf with rfl | hf2
          · exact ⟨rfl, ht⟩
          · exact hup f hf2
        · have hc := inv.core
          simp only [coreOf] at hc ⊢
          exact hc
      simp only [runEvents, hstep]
      exact ih (d + 1) _ hall2 hnest2 inv2
    | closeTag t =>
      have ht : t = "envelope" ∨ t = "controlpoint" := by
        have := hall _ (List.mem_cons_self _ _)
        simpa [isEnvCp] using this
      cases d with
      | zero => simp [nestedOk] at hnest
      | succ d2 =>
        have hnest2 : nestedOk d2 rest = true := by
          simpa [nestedOk] using hnest
        cases upper with
        | nil => simp at hlen
        | cons f u2 =>
          have hh : st.handlers = f :: (u2 ++ ⟨ttp, "timetrack", none⟩ :: baseRest) := by
            simpa using hstack
          have hclose := bypass_close_step st t inv.ures ht f
            (u2 ++ ⟨ttp, "timetrack", none⟩ :: baseRest) hh (by simp)
          have inv2 : BypassInv (⟨ttp, "timetrack", none⟩ :: baseRest) st0 d2
              { st with
                 handlers := u2 ++ ⟨ttp, "timetrack", none⟩ :: baseRest
                 parentTag := ((u2 ++ ⟨ttp, "timetrack", none⟩ :: baseRest).headD
                   default).parent
                 currentTag := ((u2 ++ ⟨ttp, "timetrack", none⟩ :: baseRest).headD
                   default).tag } := by
            refine ⟨inv.ures, ⟨u2, by simpa using hlen, rfl,
              fun g hg => hup g (List.mem_cons_of_mem _ hg)⟩, rfl, ?_⟩
            have hc := inv.core
            simp only [coreOf] at hc ⊢
            exact hc
          simp only [runEvents, hclose]
          exact ih d2 _ hall2 hnest2 inv2

/-- C3: when the host project already has a TimeTrack, an incoming
timetrack tag is bypassed: no new track entity is created, the
dispatcher succeeds with a null-owner frame, and every well-nested
sequence of envelope and control-point events inside that subtree runs
to completion with success, no error, no new tracks, and every frame it
pushes carrying a null owner. -/
theorem timetrack_bypass_noop (env : Env) (st : PState) (attrs : Attrs)
    (hhost : env.hostHasTimeTrack = true) (hres : st.updateResult = .Success) :
    (handleXMLTag env st "timetrack" attrs).1 = true ∧
    (handleXMLTag env st "timetrack" attrs).2.tracks = st.tracks ∧
    (handleXMLTag env st "timetrack" attrs).2.updateResult = .Success ∧
    (handleXMLTag env st "timetrack" attrs).2.handlers =
      ⟨st.currentTag, "timetrack", none⟩ :: st.handlers ∧
    ∀ evs : List XmlEvent, (∀ e ∈ evs, isEnvCp e = true) →
      nestedOk 0 evs = true →
      (runEvents env (handleXMLTag env st "timetrack" attrs).2 evs).1 = true ∧
      (runEvents env (handleXMLTag env st "timetrack" attrs).2 evs).2.updateResult
        = .Success ∧
      (runEvents env (handleXMLTag env st "timetrack" attrs).2 evs).2.tracks =
        st.tracks ∧
      (runEvents env (handleXMLTag env st "timetrack" attrs).2 evs).2.errorMsg =
        st.errorMsg ∧
      ∃ upper,
        (runEvents env (handleXMLTag env st "timetrack" attrs).2 evs).2.handlers =
          upper ++ ⟨st.currentTag, "timetrack", none⟩ :: st.handlers ∧
        ∀ f ∈ upper, f.handler = none := by
  have hstep : handleXMLTag env st "timetrack" attrs =
      (true,
       { st with
          parentTag := st.currentTag
          currentTag := "timetrack"
          handlers := ⟨st.currentTag, "timetrack", none⟩ :: st.handlers }) := by
    simp [handleXMLTag, hres, dispatchTag, handleTimeTrack, hhost]
  rw [hstep]
  refine ⟨rfl, rfl, hres, rfl, ?_⟩
  intro evs hall hnest
  have inv0 : BypassInv (⟨st.currentTag, "timetrack", none⟩ :: st.handlers)
      { st with
         parentTag := st.currentTag
         currentTag := "timetrack"
         handlers := ⟨st.currentTag, "timetrack", none⟩ :: st.handlers }
      0
      { st with
         parentTag := st.currentTag
         currentTag := "timetrack"
         handlers := ⟨st.currentTag, "timetrack", none⟩ :: st.handlers } :=
    ⟨hres, ⟨[], rfl, rfl, by simp⟩, rfl, rfl⟩
  obtain ⟨hok, d2, inv2⟩ :=
    bypass_subtree_aux env st.currentTag st.handlers _ evs 0 _ hall hnest inv0
  refine ⟨hok, inv2.ures, ?_, ?_, ?_⟩
  · have hc := congrArg PState.tracks inv2.core
    simpa [coreOf] using hc
  · have hc := congrArg PState.errorMsg inv2.core
    simpa [coreOf] using hc
  · obtain ⟨upper, hlen2, hstack2, hup2⟩ := inv2.stack
    exact ⟨upper, hstack2, fun f hf => (hup2 f hf).1⟩

/-- Witness for C3 on an envelope / control-point subtree of depth two. -/
theorem timetrack_bypass_noop_witness :
    (handleXMLTag envTT { currentTag := "project" } "timetrack" []).1 = true ∧
    (handleXMLTag envTT { currentTag := "project" } "timetrack" []).2.tracks = [] ∧
    (handleXMLTag envTT { currentTag := "project" } "timetrack" []).2.updateResult
      = .Success ∧
    (handleXMLTag envTT { currentTag := "project" } "timetrack" []).2.handlers =
      [⟨"project", "timetrack", none⟩] ∧
    ((runEvents envTT
        (handleXMLTag envTT { currentTag := "project" } "timetrack" []).2
        [.openTag "envelope" [], .openTag "controlpoint" [],
         .closeTag "controlpoint", .closeTag "envelope"]).1 = true ∧
      (runEvents envTT
        (handleXMLTag envTT { currentTag := "project" } "timetrack" []).2
        [.openTag "envelope" [], .openTag "controlpoint" [],
         .closeTag "controlpoint", .closeTag "envelope"]).2.updateResult =
        .Success ∧
      (runEvents envTT
        (handleXMLTag envTT { currentTag := "project" } "timetrack" []).2
        [.openTag "envelope" [], .openTag "controlpoint" [],
         .closeTag "controlpoint", .closeTag "envelope"]).2.tracks = [] ∧
      (runEvents envTT
        (handleXMLTag envTT { currentTag := "project" } "timetrack" []).2
        [.openTag "envelope" [], .openTag "controlpoint" [],
         .closeTag "controlpoint", .closeTag "envelope"]).2.errorMsg = none ∧
      ∃ upper,
        (runEvents envTT
          (handleXMLTag envTT { currentTag := "project" } "timetrack" []).2
          [.openTag "envelope" [], .openTag "controlpoint" [],
           .closeTag "controlpoint", .closeTag "envelope"]).2.handlers =
          upper ++ [⟨"project", "timetrack", none⟩] ∧
        ∀ f ∈ upper, f.handler = none) := by
  have h := timetrack_bypass_noop envTT { currentTag := "project" } [] rfl rfl
  exact ⟨h.1, h.2.1, h.2.2.1, h.2.2.2.1,
    h.2.2.2.2 [.openTag "envelope" [], .openTag "controlpoint" [],
      .closeTag "controlpoint", .closeTag "envelope"] (by decide) (by decide)⟩

end ImportAUP
